import Mathlib

/-!
Verification of the g3-resolver runtime actor
(src/lib/g3-resolver/src/runtime.rs) against its specification.

The runtime actor owns six maps (per-family cache, in-flight "doing"
tracker, and trash/grace store), two delay queues for expiry timers, an
optional driver, and a batch knob.  We embed the state and every handler
(`handle_req`, `handle_rsp`, `handle_expired_v4/v6`, `handle_cmd`,
`clean_trash`, and the request-drain step of `poll_loop`) as executable
Lean functions.  Sends over one-shot reply channels and dispatches to the
driver are returned as explicit event lists.  `Instant` is modelled as a
natural number; waiter one-shot senders are modelled by numeric ids.
-/

namespace G3Resolver

abbrev Domain := String

/-- Modelled from the spec: the `ResolvedRecord` type of the g3-resolver
crate is not under src/ (only `runtime.rs` is); per spec §3 it carries the
interned `domain`, an acceptability flag, an optional absolute `expire`
instant and an optional absolute `vanish` instant. -/
structure ResolvedRecord where
  domain : Domain
  acceptability : Bool
  expire : Option Nat
  vanish : Option Nat
  deriving DecidableEq, Repr

/-- Modelled from the spec: `ResolvedRecord::is_acceptable` (not under
src/) reports whether the record is a usable answer versus a transient
failure — spec §3 `acceptability`. -/
def ResolvedRecord.is_acceptable (r : ResolvedRecord) : Bool :=
  r.acceptability

/-- Modelled from the spec: provenance tag `ResolvedRecordSource`
(spec §6: provenance ∈ \x7bCache, Trash, Query\x7d). -/
inductive ResolvedRecordSource where
  | Cache
  | Query
  | Trash
  deriving DecidableEq, Repr

inductive Family where
  | v4
  | v6
  deriving DecidableEq, Repr

/-- Modelled from the spec: the request message type of `message.rs` (not
under src/); `runtime.rs` matches on `ResolveDriverRequest::GetV4(domain,
sender)` and `GetV6(domain, sender)`.  One-shot reply senders are numeric
ids. -/
inductive ResolveDriverRequest where
  | GetV4 (domain : Domain) (sender : Nat)
  | GetV6 (domain : Domain) (sender : Nat)
  deriving DecidableEq, Repr

/-- Modelled from the spec: the response message type of `message.rs` (not
under src/); `runtime.rs` matches on `ResolveDriverResponse::V4(record)`
and `V6(record)`. -/
inductive ResolveDriverResponse where
  | V4 (record : ResolvedRecord)
  | V6 (record : ResolvedRecord)
  deriving DecidableEq, Repr

/-- Modelled from the spec: the control command type (not under src/);
`runtime.rs` matches on `ResolverCommand::Update(config)` (hot driver
swap, which may fail and is then only logged) and `ResolverCommand::Quit`.
We carry the new batch knob and whether `spawn_resolver_driver` succeeds. -/
inductive ResolverCommand where
  | Update (spawn_ok : Bool) (new_batch : Nat)
  | Quit
  deriving DecidableEq, Repr

/-- A send on a waiter's one-shot reply channel: `sender.send((record,
source))` in the source. -/
structure Send where
  sender : Nat
  record : ResolvedRecord
  source : ResolvedRecordSource
  deriving DecidableEq, Repr

/-- A dispatch of an upstream query: `driver.query_v4/query_v6(domain, ..)`
in the source. -/
abbrev Dispatch := Family × Domain

/-- `CachedRecord` from runtime.rs: the record, its expire instant and its
key into the expiry delay queue. -/
structure CachedRecord where
  inner : ResolvedRecord
  expire_at : Nat
  expire_key : Option Nat
  deriving DecidableEq, Repr

/-- `TrashedRecord` from runtime.rs. -/
structure TrashedRecord where
  inner : ResolvedRecord
  vanish_at : Nat
  deriving DecidableEq, Repr

/-- Hash-map lookup (`AHashMap::get`), on an association list. -/
def mget {α : Type} : List (Domain × α) → Domain → Option α
  | [], _ => none
  | (k, v) :: rest, d => if k = d then some v else mget rest d

/-- Hash-map insert-or-replace (`AHashMap::insert` / occupied-entry
update), on an association list. -/
def mput {α : Type} : List (Domain × α) → Domain → α → List (Domain × α)
  | [], d, x => [(d, x)]
  | (k, v) :: rest, d, x => if k = d then (k, x) :: rest else (k, v) :: mput rest d x

/-- Hash-map removal (`AHashMap::remove`), on an association list. -/
def mdel {α : Type} : List (Domain × α) → Domain → List (Domain × α)
  | [], _ => []
  | (k, v) :: rest, d => if k = d then mdel rest d else (k, v) :: mdel rest d

/-- Models the tokio-util `DelayQueue` used for the expiry index (spec
§4.1): a list of (key, domain, deadline) slots plus a fresh-key counter. -/
structure DelayQueue where
  entries : List (Nat × Domain × Nat)
  next_key : Nat
  deriving DecidableEq, Repr

/-- `DelayQueue::insert_at`: allocate a fresh key for a new slot. -/
def DelayQueue.insert_at (q : DelayQueue) (d : Domain) (t : Nat) : Nat × DelayQueue :=
  (q.next_key, ⟨(q.next_key, d, t) :: q.entries, q.next_key + 1⟩)

/-- `DelayQueue::reset_at`: move an existing slot to a new deadline. -/
def DelayQueue.reset_at (q : DelayQueue) (k : Nat) (t : Nat) : DelayQueue :=
  ⟨q.entries.map (fun e => if e.1 = k then (e.1, e.2.1, t) else e), q.next_key⟩

/-- Draining `poll_expired` at instant `now`: all slots whose deadline has
passed fire (in the order they sit in the queue) and are consumed. -/
def DelayQueue.take_expired (q : DelayQueue) (now : Nat) : List Domain × DelayQueue :=
  ((q.entries.filter (fun e => e.2.2 ≤ now)).map (fun e => e.2.1),
   ⟨q.entries.filter (fun e => ¬ e.2.2 ≤ now), q.next_key⟩)

/-- The mutable state of `ResolverRuntime`.  The driver is modelled by its
presence (`Option<BoxResolverDriver>` → `Bool`); the config is modelled by
the one knob `runtime.rs` reads while processing events,
`batch_request_count` (spec §6: the maximum number of client requests
drained per actor iteration; the initial capacity hints do not affect
behaviour). -/
structure RuntimeState where
  cache_v4 : List (Domain × CachedRecord)
  cache_v6 : List (Domain × CachedRecord)
  doing_v4 : List (Domain × List Nat)
  doing_v6 : List (Domain × List Nat)
  trash_v4 : List (Domain × TrashedRecord)
  trash_v6 : List (Domain × TrashedRecord)
  expired_v4 : DelayQueue
  expired_v6 : DelayQueue
  driver : Bool
  batch_request_count : Nat
  deriving DecidableEq, Repr

/-- `ResolverRuntime::new`: empty maps and queues, no driver yet. -/
def initState (batch : Nat) : RuntimeState :=
  { cache_v4 := [], cache_v6 := [], doing_v4 := [], doing_v6 := []
    trash_v4 := [], trash_v6 := []
    expired_v4 := ⟨[], 0⟩, expired_v6 := ⟨[], 0⟩
    driver := false, batch_request_count := batch }

/-- `ResolverRuntime::update_cache`: upsert `record` at `expire_at`,
reusing the occupied entry's existing delay-queue key via `reset_at` when
there is one, otherwise allocating a fresh key via `insert_at`. -/
def update_cache (cache : List (Domain × CachedRecord)) (q : DelayQueue)
    (record : ResolvedRecord) (expire_at : Nat) :
    List (Domain × CachedRecord) × DelayQueue :=
  match mget cache record.domain with
  | some v =>
    match v.expire_key with
    | some k =>
      (mput cache record.domain ⟨record, expire_at, some k⟩, q.reset_at k expire_at)
    | none =>
      let p := q.insert_at record.domain expire_at
      (mput cache record.domain ⟨record, expire_at, some p.1⟩, p.2)
  | none =>
    let p := q.insert_at record.domain expire_at
    (mput cache record.domain ⟨record, expire_at, some p.1⟩, p.2)

/-- `Vec::pop`: removes and returns the last element. -/
def vecPop {α : Type} : List α → Option (α × List α)
  | [] => none
  | [a] => some (a, [])
  | a :: b :: rest =>
    match vecPop (b :: rest) with
    | some (x, r) => some (x, a :: r)
    | none => none

/-- Common tail of `handle_rsp` (v4 branch): remove the doing entry; if it
had waiters, pop the last one and send it the record with `Query`
provenance, then send every earlier waiter the record with `Cache`
provenance; finally, if the record carries an expire instant, upsert it
into the cache. -/
def handle_rsp_tail_v4 (st : RuntimeState) (record : ResolvedRecord) :
    RuntimeState × List Send :=
  let pr : RuntimeState × List Send :=
    match mget st.doing_v4 record.domain with
    | some vec =>
      let st1 := { st with doing_v4 := mdel st.doing_v4 record.domain }
      match vecPop vec with
      | some p =>
        (st1, ⟨p.1, record, .Query⟩ :: p.2.map (fun s => ⟨s, record, .Cache⟩))
      | none => (st1, [])
    | none => (st, [])
  match record.expire with
  | some expire_at =>
    let cq := update_cache pr.1.cache_v4 pr.1.expired_v4 record expire_at
    ({ pr.1 with cache_v4 := cq.1, expired_v4 := cq.2 }, pr.2)
  | none => pr

/-- Common tail of `handle_rsp` (v6 branch), mirroring the v4 branch. -/
def handle_rsp_tail_v6 (st : RuntimeState) (record : ResolvedRecord) :
    RuntimeState × List Send :=
  let pr : RuntimeState × List Send :=
    match mget st.doing_v6 record.domain with
    | some vec =>
      let st1 := { st with doing_v6 := mdel st.doing_v6 record.domain }
      match vecPop vec with
      | some p =>
        (st1, ⟨p.1, record, .Query⟩ :: p.2.map (fun s => ⟨s, record, .Cache⟩))
      | none => (st1, [])
    | none => (st, [])
  match record.expire with
  | some expire_at =>
    let cq := update_cache pr.1.cache_v6 pr.1.expired_v6 record expire_at
    ({ pr.1 with cache_v6 := cq.1, expired_v6 := cq.2 }, pr.2)
  | none => pr

/-- `ResolverRuntime::handle_rsp`: if the record is not acceptable and a
trash entry exists for its domain, fan that trash record out to all
current waiters with `Trash` provenance and stop; if the record is
acceptable, first remove any trash entry; then run the common tail. -/
def handle_rsp (st : RuntimeState) : ResolveDriverResponse → RuntimeState × List Send
  | .V4 record =>
    if !record.is_acceptable then
      match mget st.trash_v4 record.domain with
      | some v =>
        match mget st.doing_v4 record.domain with
        | some vec =>
          ({ st with doing_v4 := mdel st.doing_v4 record.domain },
           vec.map (fun s => ⟨s, v.inner, .Trash⟩))
        | none => (st, [])
      | none => handle_rsp_tail_v4 st record
    else
      handle_rsp_tail_v4 { st with trash_v4 := mdel st.trash_v4 record.domain } record
  | .V6 record =>
    if !record.is_acceptable then
      match mget st.trash_v6 record.domain with
      | some v =>
        match mget st.doing_v6 record.domain with
        | some vec =>
          ({ st with doing_v6 := mdel st.doing_v6 record.domain },
           vec.map (fun s => ⟨s, v.inner, .Trash⟩))
        | none => (st, [])
      | none => handle_rsp_tail_v6 st record
    else
      handle_rsp_tail_v6 { st with trash_v6 := mdel st.trash_v6 record.domain } record

/-- `ResolverRuntime::handle_expired_v4`: remove the fired domain's cache
entry; if the removed record carries a `vanish` instant, demote it into
trash keyed by the record's own domain; no entry means no-op. -/
def handle_expired_v4 (st : RuntimeState) (domain : Domain) : RuntimeState :=
  match mget st.cache_v4 domain with
  | some r =>
    let st1 := { st with cache_v4 := mdel st.cache_v4 domain }
    match r.inner.vanish with
    | some vanish_at =>
      { st1 with trash_v4 := mput st1.trash_v4 r.inner.domain ⟨r.inner, vanish_at⟩ }
    | none => st1
  | none => st

/-- `ResolverRuntime::handle_expired_v6`, mirroring the v4 version. -/
def handle_expired_v6 (st : RuntimeState) (domain : Domain) : RuntimeState :=
  match mget st.cache_v6 domain with
  | some r =>
    let st1 := { st with cache_v6 := mdel st.cache_v6 domain }
    match r.inner.vanish with
    | some vanish_at =>
      { st1 with trash_v6 := mput st1.trash_v6 r.inner.domain ⟨r.inner, vanish_at⟩ }
    | none => st1
  | none => st

/-- `ResolverRuntime::handle_req`.  `none` models the `unreachable!()`
panic taken when a query must be dispatched on the join-or-start path and
no driver is set.  On a cache hit, reply with `Cache` provenance.  On a
trash hit, reply with `Trash` provenance and, only if no doing entry
exists, insert an empty waiter list and dispatch a refresh query (the
`or_insert_with` closure dispatches only when a driver is present and
never panics).  Otherwise join an existing doing entry, or create one with
this single waiter and dispatch. -/
def handle_req (st : RuntimeState) :
    ResolveDriverRequest → Option (RuntimeState × List Send × List Dispatch)
  | .GetV4 domain sender =>
    match mget st.cache_v4 domain with
    | some r => some (st, [⟨sender, r.inner, .Cache⟩], [])
    | none =>
      match mget st.trash_v4 domain with
      | some r =>
        match mget st.doing_v4 domain with
        | some _ => some (st, [⟨sender, r.inner, .Trash⟩], [])
        | none =>
          some ({ st with doing_v4 := mput st.doing_v4 domain [] },
                [⟨sender, r.inner, .Trash⟩],
                if st.driver then [(.v4, domain)] else [])
      | none =>
        match mget st.doing_v4 domain with
        | some l =>
          some ({ st with doing_v4 := mput st.doing_v4 domain (l ++ [sender]) }, [], [])
        | none =>
          if st.driver then
            some ({ st with doing_v4 := mput st.doing_v4 domain [sender] }, [],
                  [(.v4, domain)])
          else
            none
  | .GetV6 domain sender =>
    match mget st.cache_v6 domain with
    | some r => some (st, [⟨sender, r.inner, .Cache⟩], [])
    | none =>
      match mget st.trash_v6 domain with
      | some r =>
        match mget st.doing_v6 domain with
        | some _ => some (st, [⟨sender, r.inner, .Trash⟩], [])
        | none =>
          some ({ st with doing_v6 := mput st.doing_v6 domain [] },
                [⟨sender, r.inner, .Trash⟩],
                if st.driver then [(.v6, domain)] else [])
      | none =>
        match mget st.doing_v6 domain with
        | some l =>
          some ({ st with doing_v6 := mput st.doing_v6 domain (l ++ [sender]) }, [], [])
        | none =>
          if st.driver then
            some ({ st with doing_v6 := mput st.doing_v6 domain [sender] }, [],
                  [(.v6, domain)])
          else
            none

/-- `ResolverRuntime::handle_cmd`: `Update` hot-swaps the driver and the
config when the new driver spawns; a failed spawn is only logged (state
unchanged); `Quit` is handled outside. -/
def handle_cmd (st : RuntimeState) : ResolverCommand → RuntimeState
  | .Update ok batch =>
    if ok then { st with driver := true, batch_request_count := batch } else st
  | .Quit => st

/-- `ResolverRuntime::clean_trash`: retain exactly the trash entries whose
`vanish_at` is still strictly in the future. -/
def clean_trash (st : RuntimeState) (now : Nat) : RuntimeState :=
  { st with
    trash_v4 := st.trash_v4.filter (fun p => now < p.2.vanish_at)
    trash_v6 := st.trash_v6.filter (fun p => now < p.2.vanish_at) }

/-- Process a list of client requests in order (as the actor loop does
when draining the request channel); `none` as soon as one panics. -/
def run_reqs (st : RuntimeState) :
    List ResolveDriverRequest → Option (RuntimeState × List Send × List Dispatch)
  | [] => some (st, [], [])
  | q :: rest =>
    match handle_req st q with
    | none => none
    | some (st1, s1, d1) =>
      match run_reqs st1 rest with
      | none => none
      | some (st2, s2, d2) => some (st2, s1 ++ s2, d1 ++ d2)

/-- Process a list of driver responses in order (as the actor loop does
when draining the response channel). -/
def run_rsps (st : RuntimeState) :
    List ResolveDriverResponse → RuntimeState × List Send
  | [] => (st, [])
  | r :: rest =>
    let p := handle_rsp st r
    let q := run_rsps p.1 rest
    (q.1, p.2 ++ q.2)

/-- Process a list of fired v4 expiry domains in order. -/
def run_expired_v4 (st : RuntimeState) : List Domain → RuntimeState
  | [] => st
  | d :: rest => run_expired_v4 (handle_expired_v4 st d) rest

/-- Process a list of fired v6 expiry domains in order. -/
def run_expired_v6 (st : RuntimeState) : List Domain → RuntimeState
  | [] => st
  | d :: rest => run_expired_v6 (handle_expired_v6 st d) rest

/-- Result of the per-iteration request drain: final state, sends,
dispatches, requests left in the channel, and how many were processed. -/
structure DrainResult where
  state : RuntimeState
  sends : List Send
  dispatches : List Dispatch
  leftover : List ResolveDriverRequest
  processed : Nat
  deriving DecidableEq, Repr

/-- The body of the request-drain `for` loop of `poll_loop`, with `iters`
remaining loop iterations: each iteration polls the request channel (an
empty channel is `Poll::Pending` and ends the poll) and handles one
request; `none` models a panic inside `handle_req`. -/
def drain_go (st : RuntimeState) (queue : List ResolveDriverRequest) :
    Nat → Option DrainResult
  | 0 => some ⟨st, [], [], queue, 0⟩
  | iters + 1 =>
    match queue with
    | [] => some ⟨st, [], [], [], 0⟩
    | req :: rest =>
      match handle_req st req with
      | none => none
      | some (st1, s1, d1) =>
        match drain_go st1 rest iters with
        | none => none
        | some r => some ⟨r.state, s1 ++ r.sends, d1 ++ r.dispatches, r.leftover, r.processed + 1⟩

/-- The request-drain step of one `poll_loop` outer iteration: the source
loop is `for _ in 1..self.config.runtime.batch_request_count`, and Rust's
range `1..n` yields `n - 1` iterations. -/
def drain_requests (st : RuntimeState) (queue : List ResolveDriverRequest) :
    Option DrainResult :=
  drain_go st queue (st.batch_request_count - 1)

/-- Result of one poll of the runtime future, up to the end of the first
outer-loop iteration. -/
structure IterResult where
  state : RuntimeState
  sends : List Send
  dispatches : List Dispatch
  leftover : List ResolveDriverRequest
  processed : Nat
  deriving DecidableEq, Repr

/-- The event-processing phase of one `poll_loop` outer iteration, after
the trash sweep and the control command: drain all queued driver
responses, drain all fired expiry slots of both families, and finally
drain up to `batch_request_count - 1` client requests. -/
def poll_events (st : RuntimeState) (now : Nat)
    (rsps : List ResolveDriverResponse) (reqs : List ResolveDriverRequest) :
    Option IterResult :=
  let pr := run_rsps st rsps
  let e4 := pr.1.expired_v4.take_expired now
  let st2 := run_expired_v4 { pr.1 with expired_v4 := e4.2 } e4.1
  let e6 := st2.expired_v6.take_expired now
  let st3 := run_expired_v6 { st2 with expired_v6 := e6.2 } e6.1
  match drain_requests st3 reqs with
  | none => none
  | some dr =>
    some ⟨dr.state, pr.2 ++ dr.sends, dr.dispatches, dr.leftover, dr.processed⟩

/-- One poll of the runtime future (`poll_loop`), up to the end of the
first outer-loop iteration: ensure a driver (a failed initial spawn is a
`Poll::Ready(Err)`, modelled `none`), sweep the trash once, then handle at
most one control command (`Quit` exits before any event processing), then
run the event-processing phase.  All event processing of the iteration is
placed at the single logical instant `now`. -/
def poll_iteration (st : RuntimeState) (now : Nat) (spawn_ok : Bool)
    (cmds : List ResolverCommand) (rsps : List ResolveDriverResponse)
    (reqs : List ResolveDriverRequest) : Option IterResult :=
  let st := if st.driver then st else if spawn_ok then { st with driver := true } else st
  if !st.driver then
    none
  else
    let st := clean_trash st now
    match cmds.head? with
    | some .Quit => some ⟨st, [], [], reqs, 0⟩
    | some (.Update ok batch) => poll_events (handle_cmd st (.Update ok batch)) now rsps reqs
    | none => poll_events st now rsps reqs

/-- One atomic event of the actor, for reachability arguments. -/
inductive Event where
  | cmd (c : ResolverCommand)
  | rsp (r : ResolveDriverResponse)
  | expV4 (d : Domain)
  | expV6 (d : Domain)
  | req (q : ResolveDriverRequest)
  | sweep (now : Nat)
  deriving DecidableEq, Repr

/-- The state transition of one event (`none` models a panic). -/
def step (st : RuntimeState) : Event → Option RuntimeState
  | .cmd c => some (handle_cmd st c)
  | .rsp r => some (handle_rsp st r).1
  | .expV4 d => some (handle_expired_v4 st d)
  | .expV6 d => some (handle_expired_v6 st d)
  | .req q => (handle_req st q).map (fun x => x.1)
  | .sweep now => some (clean_trash st now)

/-- Run a list of events from a state. -/
def runEvents (st : RuntimeState) : List Event → Option RuntimeState
  | [] => some st
  | e :: rest =>
    match step st e with
    | some st1 => runEvents st1 rest
    | none => none

/-- Modelled from the spec: a driver response is well-formed when a
non-acceptable record carries no `expire` instant (spec §3: `expire`
absent ⇒ never cached, e.g. purely transient failures; §4.4: an
unacceptable record "will not have a usable `expire`").  The record
constructors enforcing this are not under src/. -/
def rspWf : ResolveDriverResponse → Prop
  | .V4 r => r.acceptability = false → r.expire = none
  | .V6 r => r.acceptability = false → r.expire = none

/-- An event is well-formed when any driver response it carries is. -/
def Event.wf : Event → Prop
  | .rsp r => rspWf r
  | _ => True

/-- Every record held in the live caches is acceptable. -/
def cacheAcceptable (st : RuntimeState) : Prop :=
  (∀ p ∈ st.cache_v4, p.2.inner.acceptability = true) ∧
  (∀ p ∈ st.cache_v6, p.2.inner.acceptability = true)

/-- Every trash entry's stored `vanish_at` is the `vanish` instant of its
own record (true of every entry `handle_expired_v4/v6` ever creates). -/
def trashWf (st : RuntimeState) : Prop :=
  (∀ p ∈ st.trash_v4, p.2.inner.vanish = some p.2.vanish_at) ∧
  (∀ p ∈ st.trash_v6, p.2.inner.vanish = some p.2.vanish_at)

/-- Every trash entry is well-formed and still strictly before its vanish
instant at `now`. -/
def trashGood (st : RuntimeState) (now : Nat) : Prop :=
  (∀ p ∈ st.trash_v4, now < p.2.vanish_at ∧ p.2.inner.vanish = some p.2.vanish_at) ∧
  (∀ p ∈ st.trash_v6, now < p.2.vanish_at ∧ p.2.inner.vanish = some p.2.vanish_at)

/-- Every cached record's `vanish` instant (when present) is still
strictly in the future at `now`. -/
def cacheVanishGood (st : RuntimeState) (now : Nat) : Prop :=
  (∀ p ∈ st.cache_v4, ∀ v, p.2.inner.vanish = some v → now < v) ∧
  (∀ p ∈ st.cache_v6, ∀ v, p.2.inner.vanish = some v → now < v)

/-- Every send with `Trash` provenance in the list carries a record whose
vanish instant is strictly in the future at `now`. -/
def sendVanishGood (now : Nat) (l : List Send) : Prop :=
  ∀ s ∈ l, s.source = ResolvedRecordSource.Trash →
    ∃ v, s.record.vanish = some v ∧ now < v

/-- Family-indexed view of the cache maps. -/
def cacheOf (st : RuntimeState) : Family → List (Domain × CachedRecord)
  | .v4 => st.cache_v4
  | .v6 => st.cache_v6

/-- Family-indexed view of the doing maps. -/
def doingOf (st : RuntimeState) : Family → List (Domain × List Nat)
  | .v4 => st.doing_v4
  | .v6 => st.doing_v6

/-- Family-indexed view of the trash maps. -/
def trashOf (st : RuntimeState) : Family → List (Domain × TrashedRecord)
  | .v4 => st.trash_v4
  | .v6 => st.trash_v6

/-- Family-indexed request constructor. -/
def mkReq : Family → Domain → Nat → ResolveDriverRequest
  | .v4, d, s => .GetV4 d s
  | .v6, d, s => .GetV6 d s

/-- Family-indexed response constructor. -/
def mkRsp : Family → ResolvedRecord → ResolveDriverResponse
  | .v4, r => .V4 r
  | .v6, r => .V6 r

/-- The record carried by a driver response. -/
def rspRecord : ResolveDriverResponse → ResolvedRecord
  | .V4 r => r
  | .V6 r => r

/-- Record of the C6 counterexample: expires at 1, vanishes at 2. -/
def rC6 : ResolvedRecord := ⟨"a", true, some 1, some 2⟩
/-- State of the C6 counterexample: "a" is cached with an expiry slot at
deadline 1; the actor polls only at instant 5, after the vanish instant. -/
def stC6 : RuntimeState :=
  { cache_v4 := [("a", ⟨rC6, 1, some 0⟩)], cache_v6 := []
    doing_v4 := [], doing_v6 := [], trash_v4 := [], trash_v6 := []
    expired_v4 := ⟨[(0, "a", 1)], 1⟩, expired_v6 := ⟨[], 0⟩
    driver := true, batch_request_count := 2 }
/-- Cached record "a" for the C8 counterexample. -/
def rC8a : ResolvedRecord := ⟨"a", true, some 10, none⟩
/-- Cached record "b" for the C8 counterexample. -/
def rC8b : ResolvedRecord := ⟨"b", true, some 10, none⟩
/-- State of the C8 counterexample: batch_request_count = 2, both queued
requests are cache hits. -/
def stC8 : RuntimeState :=
  { cache_v4 := [("a", ⟨rC8a, 10, some 0⟩), ("b", ⟨rC8b, 10, some 1⟩)], cache_v6 := []
    doing_v4 := [], doing_v6 := [], trash_v4 := [], trash_v6 := []
    expired_v4 := ⟨[(0, "a", 10), (1, "b", 10)], 2⟩, expired_v6 := ⟨[], 0⟩
    driver := true, batch_request_count := 2 }
/-- Trash entry used by the C9 counterexample and several witnesses. -/
def eW : TrashedRecord := ⟨⟨"a", true, none, some 9⟩, 9⟩
/-- State of the C9 counterexample: a trash entry for "a" and no driver. -/
def stC9 : RuntimeState := { initState 2 with trash_v4 := [("a", eW)] }
/-- State of the C7 counterexample: two waiters, queued in order 0 then 1. -/
def stC7 : RuntimeState := { initState 2 with doing_v4 := [("a", [0, 1])] }
/-- Record completing the in-flight query of the C7 counterexample. -/
def rC7 : ResolvedRecord := ⟨"a", true, none, none⟩

/-- Witness state with a driver and otherwise empty maps. -/
def stW1 : RuntimeState := { initState 3 with driver := true }

/-- Witness state with a trash entry for "a" and one in-flight waiter. -/
def stW2 : RuntimeState :=
  { initState 2 with trash_v4 := [("a", eW)], doing_v4 := [("a", [5])] }

/-- Non-acceptable response record for domain "a". -/
def rFail : ResolvedRecord := ⟨"a", false, none, none⟩

/-- Non-acceptable response record for domain "b" (no trash fallback in
the witness state). -/
def rFailB : ResolvedRecord := ⟨"b", false, none, none⟩

/-- Acceptable cacheable response record for domain "g". -/
def rGood : ResolvedRecord := ⟨"g", true, some 7, none⟩

/-- State reached from the initial state by the single well-formed
response event carrying `rGood`. -/
def stC3res : RuntimeState :=
  { initState 2 with cache_v4 := [("g", ⟨rGood, 7, some 0⟩)]
                     expired_v4 := ⟨[(0, "g", 7)], 1⟩ }

/-- Witness state with a driver and a trash entry for "a". -/
def stW4 : RuntimeState := { initState 2 with driver := true, trash_v4 := [("a", eW)] }

/-- Cached record for the C5 witness: expires at 3, vanishes at 7. -/
def rW5 : ResolvedRecord := ⟨"w", true, some 3, some 7⟩

/-- Witness state with "w" cached. -/
def stW5 : RuntimeState := { initState 4 with cache_v4 := [("w", ⟨rW5, 3, some 0⟩)] }

/-- Witness state with an empty in-flight waiter list for "g" (a
background refresh nobody joined). -/
def stW10 : RuntimeState := { initState 2 with doing_v4 := [("g", [])] }

theorem mget_mput {α : Type} (m : List (Domain × α)) (k : Domain) (v : α) (d : Domain) :
    mget (mput m k v) d = if k = d then some v else mget m d := by
  induction m with
  | nil => by_cases h : k = d <;> simp [mput, mget, h]
  | cons hd tl ih =>
    obtain ⟨k1, v1⟩ := hd
    by_cases h1 : k1 = k
    · subst h1
      by_cases h2 : k1 = d <;> simp [mput, mget, h2]
    · by_cases h2 : k1 = d
      · subst h2
        have hk : ¬ k = k1 := fun h => h1 h.symm
        simp [mput, mget, h1, hk, ih]
      · simp [mput, mget, h1, h2, ih]

theorem mget_mdel {α : Type} (m : List (Domain × α)) (k : Domain) (d : Domain) :
    mget (mdel m k) d = if k = d then none else mget m d := by
  induction m with
  | nil => by_cases h : k = d <;> simp [mdel, mget, h]
  | cons hd tl ih =>
    obtain ⟨k1, v1⟩ := hd
    by_cases h1 : k1 = k
    · subst h1
      by_cases h2 : k1 = d
      · subst h2
        simp [mdel, mget, ih]
      · simp [mdel, mget, h2, ih]
    · by_cases h2 : k1 = d
      · subst h2
        have hk : ¬ k = k1 := fun h => h1 h.symm
        simp [mdel, mget, h1, hk, ih]
      · simp [mdel, mget, h1, h2, ih]

theorem mem_mput {α : Type} {m : List (Domain × α)} {k : Domain} {v : α}
    {p : Domain × α} (h : p ∈ mput m k v) : p = (k, v) ∨ p ∈ m := by
  induction m with
  | nil =>
    simp [mput] at h
    exact Or.inl h
  | cons hd tl ih =>
    obtain ⟨k1, v1⟩ := hd
    by_cases h1 : k1 = k
    · subst h1
      simp [mput] at h
      rcases h with h | h
      · exact Or.inl (by simp [h])
      · exact Or.inr (by simp [h])
    · simp [mput, h1] at h
      rcases h with h | h
      · exact Or.inr (by simp [h])
      · rcases ih h with h | h
        · exact Or.inl h
        · exact Or.inr (by simp [h])

theorem mem_mdel {α : Type} {m : List (Domain × α)} {k : Domain}
    {p : Domain × α} (h : p ∈ mdel m k) : p ∈ m := by
  induction m with
  | nil => simp [mdel] at h
  | cons hd tl ih =>
    obtain ⟨k1, v1⟩ := hd
    by_cases h1 : k1 = k
    · subst h1
      simp [mdel] at h
      exact List.mem_cons_of_mem _ (ih h)
    · simp [mdel, h1] at h
      rcases h with h | h
      · simp [h]
      · exact List.mem_cons_of_mem _ (ih h)

theorem mget_mem {α : Type} {m : List (Domain × α)} {d : Domain} {e : α}
    (h : mget m d = some e) : (d, e) ∈ m := by
  induction m with
  | nil => simp [mget] at h
  | cons hd tl ih =>
    obtain ⟨k1, v1⟩ := hd
    by_cases h1 : k1 = d
    · subst h1
      simp [mget] at h
      simp [h]
    · simp [mget, h1] at h
      simp [ih h]

theorem vecPop_eq {α : Type} : ∀ (l : List α) (h : l ≠ []),
    vecPop l = some (l.getLast h, l.dropLast) := by
  intro l
  induction l with
  | nil => intro h; exact absurd rfl h
  | cons a tl ih =>
    intro h
    cases tl with
    | nil => rfl
    | cons b rest =>
      have hbr : b :: rest ≠ [] := by simp
      have h1 : (a :: b :: rest).getLast h = (b :: rest).getLast hbr :=
        List.getLast_cons hbr
      simp only [vecPop, ih hbr, h1]
      rfl

theorem getLast_cons_dropLast_perm {α : Type} (l : List α) (h : l ≠ []) :
    (l.getLast h :: l.dropLast).Perm l := by
  conv_rhs => rw [← List.dropLast_append_getLast h]
  exact (List.perm_append_singleton _ _).symm

theorem handle_req_state (st : RuntimeState) (q : ResolveDriverRequest)
    (x : RuntimeState × List Send × List Dispatch) (h : handle_req st q = some x) :
    x.1.cache_v4 = st.cache_v4 ∧ x.1.cache_v6 = st.cache_v6 ∧
    x.1.trash_v4 = st.trash_v4 ∧ x.1.trash_v6 = st.trash_v6 ∧
    x.1.expired_v4 = st.expired_v4 ∧ x.1.expired_v6 = st.expired_v6 ∧
    x.1.driver = st.driver ∧ x.1.batch_request_count = st.batch_request_count := by
  cases q <;> simp only [handle_req] at h <;> repeat' split at h
  all_goals first
    | (injection h with h; subst h; simp)
    | injection h

theorem handle_req_sends_trash (st : RuntimeState) (q : ResolveDriverRequest) (now : Nat)
    (x : RuntimeState × List Send × List Dispatch)
    (hg : trashGood st now) (h : handle_req st q = some x) :
    sendVanishGood now x.2.1 := by
  cases q with
  | GetV4 d s =>
    simp only [handle_req] at h
    cases hc : mget st.cache_v4 d with
    | some r =>
      simp only [hc] at h
      injection h with h; subst h
      intro t ht hsrc; simp at ht; subst ht; simp at hsrc
    | none =>
      simp only [hc] at h
      cases htr : mget st.trash_v4 d with
      | some r =>
        simp only [htr] at h
        have hv : ∃ v, r.inner.vanish = some v ∧ now < v := by
          obtain ⟨h1, h2⟩ := hg.1 _ (mget_mem htr)
          exact ⟨r.vanish_at, h2, h1⟩
        cases hdo : mget st.doing_v4 d with
        | some w =>
          simp only [hdo] at h
          injection h with h; subst h
          intro t ht hsrc; simp at ht; subst ht; exact hv
        | none =>
          simp only [hdo] at h
          injection h with h; subst h
          intro t ht hsrc; simp at ht; subst ht; exact hv
      | none =>
        simp only [htr] at h
        cases hdo : mget st.doing_v4 d with
        | some w =>
          simp only [hdo] at h
          injection h with h; subst h
          intro t ht; simp at ht
        | none =>
          simp only [hdo] at h
          cases hdrv : st.driver with
          | true =>
            simp only [hdrv, if_true] at h
            injection h with h; subst h
            intro t ht; simp at ht
          | false =>
            rw [hdrv] at h
            simp at h
  | GetV6 d s =>
    simp only [handle_req] at h
    cases hc : mget st.cache_v6 d with
    | some r =>
      simp only [hc] at h
      injection h with h; subst h
      intro t ht hsrc; simp at ht; subst ht; simp at hsrc
    | none =>
      simp only [hc] at h
      cases htr : mget st.trash_v6 d with
      | some r =>
        simp only [htr] at h
        have hv : ∃ v, r.inner.vanish = some v ∧ now < v := by
          obtain ⟨h1, h2⟩ := hg.2 _ (mget_mem htr)
          exact ⟨r.vanish_at, h2, h1⟩
        cases hdo : mget st.doing_v6 d with
        | some w =>
          simp only [hdo] at h
          injection h with h; subst h
          intro t ht hsrc; simp at ht; subst ht; exact hv
        | none =>
          simp only [hdo] at h
          injection h with h; subst h
          intro t ht hsrc; simp at ht; subst ht; exact hv
      | none =>
        simp only [htr] at h
        cases hdo : mget st.doing_v6 d with
        | some w =>
          simp only [hdo] at h
          injection h with h; subst h
          intro t ht; simp at ht
        | none =>
          simp only [hdo] at h
          cases hdrv : st.driver with
          | true =>
            simp only [hdrv, if_true] at h
            injection h with h; subst h
            intro t ht; simp at ht
          | false =>
            rw [hdrv] at h
            simp at h

theorem mem_update_cache {cache : List (Domain × CachedRecord)} {q : DelayQueue}
    {record : ResolvedRecord} {e_at : Nat} {p : Domain × CachedRecord}
    (h : p ∈ (update_cache cache q record e_at).1) :
    p.2.inner = record ∨ p ∈ cache := by
  simp only [update_cache] at h
  repeat' split at h
  all_goals
    rcases mem_mput h with h1 | h1
  all_goals first
    | (subst h1; exact Or.inl rfl)
    | exact Or.inr h1

theorem handle_rsp_tail_v4_other (st : RuntimeState) (record : ResolvedRecord) :
    (handle_rsp_tail_v4 st record).1.trash_v4 = st.trash_v4 ∧
    (handle_rsp_tail_v4 st record).1.trash_v6 = st.trash_v6 ∧
    (handle_rsp_tail_v4 st record).1.cache_v6 = st.cache_v6 ∧
    (handle_rsp_tail_v4 st record).1.doing_v6 = st.doing_v6 ∧
    (handle_rsp_tail_v4 st record).1.expired_v6 = st.expired_v6 ∧
    (handle_rsp_tail_v4 st record).1.driver = st.driver ∧
    (handle_rsp_tail_v4 st record).1.batch_request_count = st.batch_request_count := by
  simp only [handle_rsp_tail_v4]
  repeat' split
  all_goals simp

theorem handle_rsp_tail_v6_other (st : RuntimeState) (record : ResolvedRecord) :
    (handle_rsp_tail_v6 st record).1.trash_v4 = st.trash_v4 ∧
    (handle_rsp_tail_v6 st record).1.trash_v6 = st.trash_v6 ∧
    (handle_rsp_tail_v6 st record).1.cache_v4 = st.cache_v4 ∧
    (handle_rsp_tail_v6 st record).1.doing_v4 = st.doing_v4 ∧
    (handle_rsp_tail_v6 st record).1.expired_v4 = st.expired_v4 ∧
    (handle_rsp_tail_v6 st record).1.driver = st.driver ∧
    (handle_rsp_tail_v6 st record).1.batch_request_count = st.batch_request_count := by
  simp only [handle_rsp_tail_v6]
  repeat' split
  all_goals simp

theorem mem_handle_rsp_tail_v4_cache {st : RuntimeState} {record : ResolvedRecord}
    {p : Domain × CachedRecord}
    (h : p ∈ (handle_rsp_tail_v4 st record).1.cache_v4) :
    p.2.inner = record ∨ p ∈ st.cache_v4 := by
  simp only [handle_rsp_tail_v4] at h
  repeat' split at h
  all_goals simp at h
  all_goals first
    | exact Or.inr h
    | exact mem_update_cache h

theorem mem_handle_rsp_tail_v6_cache {st : RuntimeState} {record : ResolvedRecord}
    {p : Domain × CachedRecord}
    (h : p ∈ (handle_rsp_tail_v6 st record).1.cache_v6) :
    p.2.inner = record ∨ p ∈ st.cache_v6 := by
  simp only [handle_rsp_tail_v6] at h
  repeat' split at h
  all_goals simp at h
  all_goals first
    | exact Or.inr h
    | exact mem_update_cache h

theorem handle_rsp_tail_v4_sends {st : RuntimeState} {record : ResolvedRecord}
    {s : Send} (h : s ∈ (handle_rsp_tail_v4 st record).2) :
    s.source = ResolvedRecordSource.Query ∨ s.source = ResolvedRecordSource.Cache := by
  simp only [handle_rsp_tail_v4] at h
  repeat' split at h
  all_goals simp at h
  all_goals try (rcases h with h | h)
  all_goals first
    | (subst h; simp)
    | (obtain ⟨a, _, h⟩ := h; subst h; simp)

theorem handle_rsp_tail_v6_sends {st : RuntimeState} {record : ResolvedRecord}
    {s : Send} (h : s ∈ (handle_rsp_tail_v6 st record).2) :
    s.source = ResolvedRecordSource.Query ∨ s.source = ResolvedRecordSource.Cache := by
  simp only [handle_rsp_tail_v6] at h
  repeat' split at h
  all_goals simp at h
  all_goals try (rcases h with h | h)
  all_goals first
    | (subst h; simp)
    | (obtain ⟨a, _, h⟩ := h; subst h; simp)

theorem handle_rsp_pres (st : RuntimeState) (r : ResolveDriverResponse) (now : Nat)
    (hg : trashGood st now) (hc : cacheVanishGood st now)
    (hr : ∀ v, (rspRecord r).vanish = some v → now < v) :
    trashGood (handle_rsp st r).1 now ∧ cacheVanishGood (handle_rsp st r).1 now ∧
      sendVanishGood now (handle_rsp st r).2 := by
  cases r with
  | V4 record =>
    simp only [handle_rsp]
    cases hacc : record.is_acceptable with
    | false =>
      simp only [hacc, Bool.not_false, if_true]
      cases htr : mget st.trash_v4 record.domain with
      | some v =>
        simp only [htr]
        have hv : ∃ w, v.inner.vanish = some w ∧ now < w := by
          obtain ⟨h1, h2⟩ := hg.1 _ (mget_mem htr)
          exact ⟨v.vanish_at, h2, h1⟩
        cases hdo : mget st.doing_v4 record.domain with
        | some vec =>
          simp only [hdo]
          refine ⟨⟨hg.1, hg.2⟩, ⟨hc.1, hc.2⟩, ?_⟩
          intro t ht hsrc
          simp at ht
          obtain ⟨a, _, ht⟩ := ht
          subst ht
          exact hv
        | none =>
          simp only [hdo]
          exact ⟨hg, hc, by intro t ht; simp at ht⟩
      | none =>
        simp only [htr]
        refine ⟨?_, ?_, ?_⟩
        · constructor
          · intro p hp
            exact hg.1 p (by
              have := (handle_rsp_tail_v4_other st record).1
              rw [this] at hp
              exact hp)
          · intro p hp
            exact hg.2 p (by
              have := (handle_rsp_tail_v4_other st record).2.1
              rw [this] at hp
              exact hp)
        · constructor
          · intro p hp v hv
            rcases mem_handle_rsp_tail_v4_cache hp with h1 | h1
            · exact hr v (by rw [← h1]; exact hv)
            · exact hc.1 p h1 v hv
          · intro p hp v hv
            have := (handle_rsp_tail_v4_other st record).2.2.1
            rw [this] at hp
            exact hc.2 p hp v hv
        · intro t ht hsrc
          rcases handle_rsp_tail_v4_sends ht with h1 | h1 <;> simp [h1] at hsrc
    | true =>
      simp only [hacc, Bool.not_true, Bool.false_eq_true, if_false]
      set st1 : RuntimeState := { st with trash_v4 := mdel st.trash_v4 record.domain } with hst1
      have hg1 : trashGood st1 now := by
        constructor
        · intro p hp
          exact hg.1 p (mem_mdel hp)
        · intro p hp
          exact hg.2 p hp
      have hc1 : cacheVanishGood st1 now := hc
      refine ⟨?_, ?_, ?_⟩
      · constructor
        · intro p hp
          exact hg1.1 p (by
            have := (handle_rsp_tail_v4_other st1 record).1
            rw [this] at hp
            exact hp)
        · intro p hp
          exact hg1.2 p (by
            have := (handle_rsp_tail_v4_other st1 record).2.1
            rw [this] at hp
            exact hp)
      · constructor
        · intro p hp v hv
          rcases mem_handle_rsp_tail_v4_cache hp with h1 | h1
          · exact hr v (by rw [← h1]; exact hv)
          · exact hc1.1 p h1 v hv
        · intro p hp v hv
          have := (handle_rsp_tail_v4_other st1 record).2.2.1
          rw [this] at hp
          exact hc1.2 p hp v hv
      · intro t ht hsrc
        rcases handle_rsp_tail_v4_sends ht with h1 | h1 <;> simp [h1] at hsrc
  | V6 record =>
    simp only [handle_rsp]
    cases hacc : record.is_acceptable with
    | false =>
      simp only [hacc, Bool.not_false, if_true]
      cases htr : mget st.trash_v6 record.domain with
      | some v =>
        simp only [htr]
        have hv : ∃ w, v.inner.vanish = some w ∧ now < w := by
          obtain ⟨h1, h2⟩ := hg.2 _ (mget_mem htr)
          exact ⟨v.vanish_at, h2, h1⟩
        cases hdo : mget st.doing_v6 record.domain with
        | some vec =>
          simp only [hdo]
          refine ⟨⟨hg.1, hg.2⟩, ⟨hc.1, hc.2⟩, ?_⟩
          intro t ht hsrc
          simp at ht
          obtain ⟨a, _, ht⟩ := ht
          subst ht
          exact hv
        | none =>
          simp only [hdo]
          exact ⟨hg, hc, by intro t ht; simp at ht⟩
      | none =>
        simp only [htr]
        refine ⟨?_, ?_, ?_⟩
        · constructor
          · intro p hp
            exact hg.1 p (by
              have := (handle_rsp_tail_v6_other st record).1
              rw [this] at hp
              exact hp)
          · intro p hp
            exact hg.2 p (by
              have := (handle_rsp_tail_v6_other st record).2.1
              rw [this] at hp
              exact hp)
        · constructor
          · intro p hp v hv
            have := (handle_rsp_tail_v6_other st record).2.2.1
            rw [this] at hp
            exact hc.1 p hp v hv
          · intro p hp v hv
            rcases mem_handle_rsp_tail_v6_cache hp with h1 | h1
            · exact hr v (by rw [← h1]; exact hv)
            · exact hc.2 p h1 v hv
        · intro t ht hsrc
          rcases handle_rsp_tail_v6_sends ht with h1 | h1 <;> simp [h1] at hsrc
    | true =>
      simp only [hacc, Bool.not_true, Bool.false_eq_true, if_false]
      set st1 : RuntimeState := { st with trash_v6 := mdel st.trash_v6 record.domain } with hst1
      have hg1 : trashGood st1 now := by
        constructor
        · intro p hp
          exact hg.1 p hp
        · intro p hp
          exact hg.2 p (mem_mdel hp)
      have hc1 : cacheVanishGood st1 now := hc
      refine ⟨?_, ?_, ?_⟩
      · constructor
        · intro p hp
          exact hg1.1 p (by
            have := (handle_rsp_tail_v6_other st1 record).1
            rw [this] at hp
            exact hp)
        · intro p hp
          exact hg1.2 p (by
            have := (handle_rsp_tail_v6_other st1 record).2.1
            rw [this] at hp
            exact hp)
      · constructor
        · intro p hp v hv
          have := (handle_rsp_tail_v6_other st1 record).2.2.1
          rw [this] at hp
          exact hc1.1 p hp v hv
        · intro p hp v hv
          rcases mem_handle_rsp_tail_v6_cache hp with h1 | h1
          · exact hr v (by rw [← h1]; exact hv)
          · exact hc1.2 p h1 v hv
      · intro t ht hsrc
        rcases handle_rsp_tail_v6_sends ht with h1 | h1 <;> simp [h1] at hsrc

theorem handle_expired_v4_pres (st : RuntimeState) (d : Domain) (now : Nat)
    (hg : trashGood st now) (hc : cacheVanishGood st now) :
    trashGood (handle_expired_v4 st d) now ∧ cacheVanishGood (handle_expired_v4 st d) now := by
  cases hm : mget st.cache_v4 d with
  | none =>
    simp only [handle_expired_v4, hm]
    exact ⟨hg, hc⟩
  | some r =>
    cases hv : r.inner.vanish with
    | none =>
      simp only [handle_expired_v4, hm, hv]
      refine ⟨⟨hg.1, hg.2⟩, ⟨?_, hc.2⟩⟩
      intro p hp v hvv
      exact hc.1 p (mem_mdel hp) v hvv
    | some vanish_at =>
      simp only [handle_expired_v4, hm, hv]
      refine ⟨⟨?_, hg.2⟩, ⟨?_, hc.2⟩⟩
      · intro p hp
        rcases mem_mput hp with h1 | h1
        · subst h1
          exact ⟨hc.1 _ (mget_mem hm) vanish_at hv, hv⟩
        · exact hg.1 p h1
      · intro p hp v hvv
        exact hc.1 p (mem_mdel hp) v hvv

theorem handle_expired_v6_pres (st : RuntimeState) (d : Domain) (now : Nat)
    (hg : trashGood st now) (hc : cacheVanishGood st now) :
    trashGood (handle_expired_v6 st d) now ∧ cacheVanishGood (handle_expired_v6 st d) now := by
  cases hm : mget st.cache_v6 d with
  | none =>
    simp only [handle_expired_v6, hm]
    exact ⟨hg, hc⟩
  | some r =>
    cases hv : r.inner.vanish with
    | none =>
      simp only [handle_expired_v6, hm, hv]
      refine ⟨⟨hg.1, hg.2⟩, ⟨hc.1, ?_⟩⟩
      intro p hp v hvv
      exact hc.2 p (mem_mdel hp) v hvv
    | some vanish_at =>
      simp only [handle_expired_v6, hm, hv]
      refine ⟨⟨hg.1, ?_⟩, ⟨hc.1, ?_⟩⟩
      · intro p hp
        rcases mem_mput hp with h1 | h1
        · subst h1
          exact ⟨hc.2 _ (mget_mem hm) vanish_at hv, hv⟩
        · exact hg.2 p h1
      · intro p hp v hvv
        exact hc.2 p (mem_mdel hp) v hvv

theorem handle_cmd_pres (st : RuntimeState) (c : ResolverCommand) :
    (handle_cmd st c).cache_v4 = st.cache_v4 ∧ (handle_cmd st c).cache_v6 = st.cache_v6 ∧
    (handle_cmd st c).trash_v4 = st.trash_v4 ∧ (handle_cmd st c).trash_v6 = st.trash_v6 ∧
    (handle_cmd st c).doing_v4 = st.doing_v4 ∧ (handle_cmd st c).doing_v6 = st.doing_v6 ∧
    (handle_cmd st c).expired_v4 = st.expired_v4 ∧
    (handle_cmd st c).expired_v6 = st.expired_v6 := by
  cases c with
  | Update ok batch => cases ok <;> simp [handle_cmd]
  | Quit => simp [handle_cmd]

theorem mem_clean_trash_v4 (st : RuntimeState) (now : Nat) (p : Domain × TrashedRecord) :
    p ∈ (clean_trash st now).trash_v4 ↔ p ∈ st.trash_v4 ∧ now < p.2.vanish_at := by
  simp [clean_trash, List.mem_filter]

theorem mem_clean_trash_v6 (st : RuntimeState) (now : Nat) (p : Domain × TrashedRecord) :
    p ∈ (clean_trash st now).trash_v6 ↔ p ∈ st.trash_v6 ∧ now < p.2.vanish_at := by
  simp [clean_trash, List.mem_filter]

theorem clean_trash_trashGood (st : RuntimeState) (now : Nat) (hw : trashWf st) :
    trashGood (clean_trash st now) now := by
  constructor
  · intro p hp
    rw [mem_clean_trash_v4] at hp
    exact ⟨hp.2, hw.1 p hp.1⟩
  · intro p hp
    rw [mem_clean_trash_v6] at hp
    exact ⟨hp.2, hw.2 p hp.1⟩

theorem sendVanishGood_append {now : Nat} {a b : List Send}
    (ha : sendVanishGood now a) (hb : sendVanishGood now b) :
    sendVanishGood now (a ++ b) := by
  intro s hs
  rcases List.mem_append.mp hs with h | h
  · exact ha s h
  · exact hb s h

theorem sendVanishGood_nil (now : Nat) : sendVanishGood now [] := by
  intro s hs
  simp at hs

theorem run_rsps_pres (now : Nat) :
    ∀ (rsps : List ResolveDriverResponse) (st : RuntimeState),
    trashGood st now → cacheVanishGood st now →
    (∀ r ∈ rsps, ∀ v, (rspRecord r).vanish = some v → now < v) →
    trashGood (run_rsps st rsps).1 now ∧ cacheVanishGood (run_rsps st rsps).1 now ∧
      sendVanishGood now (run_rsps st rsps).2 := by
  intro rsps
  induction rsps with
  | nil =>
    intro st hg hc _
    exact ⟨hg, hc, sendVanishGood_nil now⟩
  | cons r rest ih =>
    intro st hg hc hr
    obtain ⟨hg1, hc1, hs1⟩ := handle_rsp_pres st r now hg hc (hr r (by simp))
    obtain ⟨hg2, hc2, hs2⟩ :=
      ih (handle_rsp st r).1 hg1 hc1 (fun x hx => hr x (by simp [hx]))
    exact ⟨hg2, hc2, sendVanishGood_append hs1 hs2⟩

theorem run_expired_v4_pres (now : Nat) :
    ∀ (ds : List Domain) (st : RuntimeState),
    trashGood st now → cacheVanishGood st now →
    trashGood (run_expired_v4 st ds) now ∧ cacheVanishGood (run_expired_v4 st ds) now := by
  intro ds
  induction ds with
  | nil => intro st hg hc; exact ⟨hg, hc⟩
  | cons d rest ih =>
    intro st hg hc
    obtain ⟨hg1, hc1⟩ := handle_expired_v4_pres st d now hg hc
    exact ih (handle_expired_v4 st d) hg1 hc1

theorem run_expired_v6_pres (now : Nat) :
    ∀ (ds : List Domain) (st : RuntimeState),
    trashGood st now → cacheVanishGood st now →
    trashGood (run_expired_v6 st ds) now ∧ cacheVanishGood (run_expired_v6 st ds) now := by
  intro ds
  induction ds with
  | nil => intro st hg hc; exact ⟨hg, hc⟩
  | cons d rest ih =>
    intro st hg hc
    obtain ⟨hg1, hc1⟩ := handle_expired_v6_pres st d now hg hc
    exact ih (handle_expired_v6 st d) hg1 hc1

theorem drain_go_sends (now : Nat) :
    ∀ (iters : Nat) (queue : List ResolveDriverRequest) (st : RuntimeState)
      (res : DrainResult),
    trashGood st now → drain_go st queue iters = some res →
    sendVanishGood now res.sends := by
  intro iters
  induction iters with
  | zero =>
    intro queue st res _ h
    simp only [drain_go] at h
    injection h with h
    subst h
    exact sendVanishGood_nil now
  | succ n ih =>
    intro queue st res hg h
    cases queue with
    | nil =>
      simp only [drain_go] at h
      injection h with h
      subst h
      exact sendVanishGood_nil now
    | cons req rest =>
      simp only [drain_go] at h
      cases hq : handle_req st req with
      | none => rw [hq] at h; injection h
      | some x =>
        obtain ⟨st1, s1, d1⟩ := x
        simp only [hq] at h
        cases hd : drain_go st1 rest n with
        | none =>
          rw [hd] at h
          injection h
        | some r2 =>
          rw [hd] at h
          injection h with h
          subst h
          have hx1 : st1.trash_v4 = st.trash_v4 ∧ st1.trash_v6 = st.trash_v6 := by
            obtain ⟨_, _, h3, h4, _⟩ := handle_req_state st req (st1, s1, d1) hq
            exact ⟨h3, h4⟩
          have hg1 : trashGood st1 now := by
            constructor
            · intro p hp
              exact hg.1 p (hx1.1 ▸ hp)
            · intro p hp
              exact hg.2 p (hx1.2 ▸ hp)
          have hs1 : sendVanishGood now s1 :=
            handle_req_sends_trash st req now (st1, s1, d1) hg hq
          exact sendVanishGood_append hs1 (ih rest st1 r2 hg1 hd)

theorem poll_events_sends_good (st : RuntimeState) (now : Nat)
    (rsps : List ResolveDriverResponse) (reqs : List ResolveDriverRequest)
    (res : IterResult) (hg : trashGood st now) (hc : cacheVanishGood st now)
    (hr : ∀ r ∈ rsps, ∀ v, (rspRecord r).vanish = some v → now < v)
    (h : poll_events st now rsps reqs = some res) :
    sendVanishGood now res.sends := by
  obtain ⟨hg1, hc1, hs1⟩ := run_rsps_pres now rsps st hg hc hr
  have hg2 : trashGood { (run_rsps st rsps).1 with
      expired_v4 := ((run_rsps st rsps).1.expired_v4.take_expired now).2 } now := hg1
  have hc2 : cacheVanishGood { (run_rsps st rsps).1 with
      expired_v4 := ((run_rsps st rsps).1.expired_v4.take_expired now).2 } now := hc1
  obtain ⟨hg3, hc3⟩ := run_expired_v4_pres now _ _ hg2 hc2
  have hg4 : trashGood { (run_expired_v4 { (run_rsps st rsps).1 with
      expired_v4 := ((run_rsps st rsps).1.expired_v4.take_expired now).2 }
      ((run_rsps st rsps).1.expired_v4.take_expired now).1) with
      expired_v6 := ((run_expired_v4 { (run_rsps st rsps).1 with
        expired_v4 := ((run_rsps st rsps).1.expired_v4.take_expired now).2 }
        ((run_rsps st rsps).1.expired_v4.take_expired now).1).expired_v6.take_expired now).2 }
      now := hg3
  have hc4 : cacheVanishGood { (run_expired_v4 { (run_rsps st rsps).1 with
      expired_v4 := ((run_rsps st rsps).1.expired_v4.take_expired now).2 }
      ((run_rsps st rsps).1.expired_v4.take_expired now).1) with
      expired_v6 := ((run_expired_v4 { (run_rsps st rsps).1 with
        expired_v4 := ((run_rsps st rsps).1.expired_v4.take_expired now).2 }
        ((run_rsps st rsps).1.expired_v4.take_expired now).1).expired_v6.take_expired now).2 }
      now := hc3
  obtain ⟨hg5, hc5⟩ := run_expired_v6_pres now _ _ hg4 hc4
  simp only [poll_events] at h
  split at h
  · injection h
  · injection h with h
    subst h
    rename_i dr hdr
    simp only [drain_requests] at hdr
    exact sendVanishGood_append hs1 (drain_go_sends now _ _ _ _ hg5 hdr)

theorem poll_tail_sends_good (stX : RuntimeState) (now : Nat)
    (cmds : List ResolverCommand) (rsps : List ResolveDriverResponse)
    (reqs : List ResolveDriverRequest) (res : IterResult)
    (hw : trashWf stX) (hc : cacheVanishGood stX now)
    (hr : ∀ r ∈ rsps, ∀ v, (rspRecord r).vanish = some v → now < v)
    (h : (match cmds.head? with
          | some ResolverCommand.Quit =>
            some ⟨clean_trash stX now, [], [], reqs, 0⟩
          | some (ResolverCommand.Update ok batch) =>
            poll_events (handle_cmd (clean_trash stX now) (.Update ok batch)) now rsps reqs
          | none => poll_events (clean_trash stX now) now rsps reqs) = some res) :
    sendVanishGood now res.sends := by
  have hgc : trashGood (clean_trash stX now) now := clean_trash_trashGood stX now hw
  have hcc : cacheVanishGood (clean_trash stX now) now := hc
  split at h
  · injection h with h
    subst h
    exact sendVanishGood_nil now
  · rename_i ok batch heq
    refine poll_events_sends_good _ now rsps reqs res ?_ ?_ hr h
    · have hcmd := handle_cmd_pres (clean_trash stX now) (.Update ok batch)
      exact ⟨fun p hp => hgc.1 p (hcmd.2.2.1 ▸ hp), fun p hp => hgc.2 p (hcmd.2.2.2.1 ▸ hp)⟩
    · have hcmd := handle_cmd_pres (clean_trash stX now) (.Update ok batch)
      exact ⟨fun p hp v hv => hcc.1 p (hcmd.1 ▸ hp) v hv,
             fun p hp v hv => hcc.2 p (hcmd.2.1 ▸ hp) v hv⟩
  · exact poll_events_sends_good _ now rsps reqs res hgc hcc hr h

theorem poll_iteration_sends_good (st : RuntimeState) (now : Nat) (spawn_ok : Bool)
    (cmds : List ResolverCommand) (rsps : List ResolveDriverResponse)
    (reqs : List ResolveDriverRequest) (res : IterResult)
    (hw : trashWf st) (hc : cacheVanishGood st now)
    (hr : ∀ r ∈ rsps, ∀ v, (rspRecord r).vanish = some v → now < v)
    (h : poll_iteration st now spawn_ok cmds rsps reqs = some res) :
    sendVanishGood now res.sends := by
  simp only [poll_iteration] at h
  by_cases hdrv : st.driver = true
  · rw [if_pos hdrv] at h
    rw [if_neg (by simp [hdrv])] at h
    exact poll_tail_sends_good st now cmds rsps reqs res hw hc hr h
  · rw [if_neg hdrv] at h
    cases hsp : spawn_ok with
    | true =>
      rw [hsp, if_pos rfl] at h
      rw [if_neg (by simp)] at h
      exact poll_tail_sends_good { st with driver := true } now cmds rsps reqs res hw hc hr h
    | false =>
      rw [hsp] at h
      simp only [Bool.false_eq_true, if_false] at h
      rw [if_pos (by simp [Bool.not_eq_true] at hdrv ⊢; simp [hdrv])] at h
      injection h

theorem drain_go_processed :
    ∀ (iters : Nat) (queue : List ResolveDriverRequest) (st : RuntimeState)
      (res : DrainResult),
    drain_go st queue iters = some res → res.processed = min iters queue.length := by
  intro iters
  induction iters with
  | zero =>
    intro queue st res h
    simp only [drain_go] at h
    injection h with h
    subst h
    simp
  | succ n ih =>
    intro queue st res h
    cases queue with
    | nil =>
      simp only [drain_go] at h
      injection h with h
      subst h
      simp
    | cons req rest =>
      simp only [drain_go] at h
      cases hq : handle_req st req with
      | none =>
        rw [hq] at h
        injection h
      | some x =>
        obtain ⟨st1, s1, d1⟩ := x
        simp only [hq] at h
        cases hd : drain_go st1 rest n with
        | none =>
          rw [hd] at h
          injection h
        | some r2 =>
          rw [hd] at h
          injection h with h
          subst h
          simp [ih rest st1 r2 hd, Nat.succ_min_succ]

theorem mget_update_cache_self (cache : List (Domain × CachedRecord)) (q : DelayQueue)
    (record : ResolvedRecord) (e_at : Nat) :
    ∃ k, mget (update_cache cache q record e_at).1 record.domain =
      some ⟨record, e_at, some k⟩ := by
  cases hm : mget cache record.domain with
  | none =>
    refine ⟨(q.insert_at record.domain e_at).1, ?_⟩
    simp [update_cache, hm, mget_mput]
  | some v =>
    cases hk : v.expire_key with
    | some k =>
      refine ⟨k, ?_⟩
      simp [update_cache, hm, hk, mget_mput]
    | none =>
      refine ⟨(q.insert_at record.domain e_at).1, ?_⟩
      simp [update_cache, hm, hk, mget_mput]

theorem handle_rsp_fanout (fam : Family) (st : RuntimeState) (r : ResolvedRecord)
    (w : List Nat) (hw : w ≠ [])
    (hdo : mget (doingOf st fam) r.domain = some w)
    (hok : r.is_acceptable = true ∨ mget (trashOf st fam) r.domain = none) :
    (handle_rsp st (mkRsp fam r)).2 =
      ⟨w.getLast hw, r, ResolvedRecordSource.Query⟩ ::
        w.dropLast.map (fun s => ⟨s, r, ResolvedRecordSource.Cache⟩) := by
  cases fam with
  | v4 =>
    simp only [doingOf] at hdo
    simp only [trashOf] at hok
    cases hacc : r.is_acceptable with
    | true =>
      have hdo1 : mget ({ st with trash_v4 := mdel st.trash_v4 r.domain } :
          RuntimeState).doing_v4 r.domain = some w := hdo
      cases hexp : r.expire <;>
        simp [mkRsp, handle_rsp, hacc, handle_rsp_tail_v4, hdo1, vecPop_eq w hw, hexp]
    | false =>
      rcases hok with hok | hok
      · rw [hacc] at hok
        exact absurd hok (by simp)
      · cases hexp : r.expire <;>
          simp [mkRsp, handle_rsp, hacc, hok, handle_rsp_tail_v4, hdo, vecPop_eq w hw, hexp]
  | v6 =>
    simp only [doingOf] at hdo
    simp only [trashOf] at hok
    cases hacc : r.is_acceptable with
    | true =>
      have hdo1 : mget ({ st with trash_v6 := mdel st.trash_v6 r.domain } :
          RuntimeState).doing_v6 r.domain = some w := hdo
      cases hexp : r.expire <;>
        simp [mkRsp, handle_rsp, hacc, handle_rsp_tail_v6, hdo1, vecPop_eq w hw, hexp]
    | false =>
      rcases hok with hok | hok
      · rw [hacc] at hok
        exact absurd hok (by simp)
      · cases hexp : r.expire <;>
          simp [mkRsp, handle_rsp, hacc, hok, handle_rsp_tail_v6, hdo, vecPop_eq w hw, hexp]

theorem run_reqs_join (fam : Family) (d : Domain) :
    ∀ (l : List Nat) (st : RuntimeState) (w : List Nat),
    mget (cacheOf st fam) d = none → mget (trashOf st fam) d = none →
    mget (doingOf st fam) d = some w →
    ∃ st1, run_reqs st (l.map (mkReq fam d)) = some (st1, [], []) ∧
      mget (doingOf st1 fam) d = some (w ++ l) ∧
      st1.cache_v4 = st.cache_v4 ∧ st1.cache_v6 = st.cache_v6 ∧
      st1.trash_v4 = st.trash_v4 ∧ st1.trash_v6 = st.trash_v6 := by
  intro l
  induction l with
  | nil =>
    intro st w hc ht hdo
    refine ⟨st, by simp [run_reqs], ?_, rfl, rfl, rfl, rfl⟩
    simpa using hdo
  | cons s rest ih =>
    intro st w hc ht hdo
    cases fam with
    | v4 =>
      simp only [cacheOf] at hc
      simp only [trashOf] at ht
      simp only [doingOf] at hdo
      have hreq : handle_req st (mkReq .v4 d s) =
          some ({ st with doing_v4 := mput st.doing_v4 d (w ++ [s]) }, [], []) := by
        simp [mkReq, handle_req, hc, ht, hdo]
      obtain ⟨st1, hrun, hdo1, h1, h2, h3, h4⟩ :=
        ih { st with doing_v4 := mput st.doing_v4 d (w ++ [s]) } (w ++ [s])
          (by simpa [cacheOf] using hc) (by simpa [trashOf] using ht)
          (by simp [doingOf, mget_mput])
      refine ⟨st1, ?_, ?_, h1, h2, h3, h4⟩
      · simp [run_reqs, hreq, hrun]
      · simpa [List.append_assoc] using hdo1
    | v6 =>
      simp only [cacheOf] at hc
      simp only [trashOf] at ht
      simp only [doingOf] at hdo
      have hreq : handle_req st (mkReq .v6 d s) =
          some ({ st with doing_v6 := mput st.doing_v6 d (w ++ [s]) }, [], []) := by
        simp [mkReq, handle_req, hc, ht, hdo]
      obtain ⟨st1, hrun, hdo1, h1, h2, h3, h4⟩ :=
        ih { st with doing_v6 := mput st.doing_v6 d (w ++ [s]) } (w ++ [s])
          (by simpa [cacheOf] using hc) (by simpa [trashOf] using ht)
          (by simp [doingOf, mget_mput])
      refine ⟨st1, ?_, ?_, h1, h2, h3, h4⟩
      · simp [run_reqs, hreq, hrun]
      · simpa [List.append_assoc] using hdo1

theorem run_reqs_trash_occupied (fam : Family) (d : Domain) :
    ∀ (l : List Nat) (st : RuntimeState) (e : TrashedRecord) (w : List Nat),
    mget (cacheOf st fam) d = none → mget (trashOf st fam) d = some e →
    mget (doingOf st fam) d = some w →
    run_reqs st (l.map (mkReq fam d)) =
      some (st, l.map (fun s => ⟨s, e.inner, ResolvedRecordSource.Trash⟩), []) := by
  intro l
  induction l with
  | nil =>
    intro st e w _ _ _
    simp [run_reqs]
  | cons s rest ih =>
    intro st e w hc ht hdo
    have hrest := ih st e w hc ht hdo
    cases fam with
    | v4 =>
      simp only [cacheOf] at hc
      simp only [trashOf] at ht
      simp only [doingOf] at hdo
      have hreq : handle_req st (mkReq .v4 d s) =
          some (st, [⟨s, e.inner, ResolvedRecordSource.Trash⟩], []) := by
        simp [mkReq, handle_req, hc, ht, hdo]
      simp [run_reqs, hreq, hrest]
    | v6 =>
      simp only [cacheOf] at hc
      simp only [trashOf] at ht
      simp only [doingOf] at hdo
      have hreq : handle_req st (mkReq .v6 d s) =
          some (st, [⟨s, e.inner, ResolvedRecordSource.Trash⟩], []) := by
        simp [mkReq, handle_req, hc, ht, hdo]
      simp [run_reqs, hreq, hrest]

theorem handle_rsp_tail_v4_cache_none {st : RuntimeState} {record : ResolvedRecord}
    (hexp : record.expire = none) :
    (handle_rsp_tail_v4 st record).1.cache_v4 = st.cache_v4 := by
  simp only [handle_rsp_tail_v4, hexp]
  repeat' split
  all_goals simp

theorem handle_rsp_tail_v6_cache_none {st : RuntimeState} {record : ResolvedRecord}
    (hexp : record.expire = none) :
    (handle_rsp_tail_v6 st record).1.cache_v6 = st.cache_v6 := by
  simp only [handle_rsp_tail_v6, hexp]
  repeat' split
  all_goals simp

theorem handle_rsp_cacheAcc (st : RuntimeState) (r : ResolveDriverResponse)
    (hwf : rspWf r) (hA : cacheAcceptable st) : cacheAcceptable (handle_rsp st r).1 := by
  cases r with
  | V4 record =>
    cases hacc : record.is_acceptable with
    | false =>
      have hexp : record.expire = none := hwf hacc
      cases htr : mget st.trash_v4 record.domain with
      | some v =>
        cases hdo : mget st.doing_v4 record.domain with
        | some vec =>
          have hst : (handle_rsp st (.V4 record)).1 =
              { st with doing_v4 := mdel st.doing_v4 record.domain } := by
            simp [handle_rsp, hacc, htr, hdo]
          rw [hst]
          exact ⟨hA.1, hA.2⟩
        | none =>
          have hst : (handle_rsp st (.V4 record)).1 = st := by
            simp [handle_rsp, hacc, htr, hdo]
          rw [hst]
          exact hA
      | none =>
        have hst : (handle_rsp st (.V4 record)).1 = (handle_rsp_tail_v4 st record).1 := by
          simp [handle_rsp, hacc, htr]
        rw [hst]
        constructor
        · intro p hp
          rw [handle_rsp_tail_v4_cache_none hexp] at hp
          exact hA.1 p hp
        · intro p hp
          rw [(handle_rsp_tail_v4_other st record).2.2.1] at hp
          exact hA.2 p hp
    | true =>
      have hst : (handle_rsp st (.V4 record)).1 =
          (handle_rsp_tail_v4 { st with trash_v4 := mdel st.trash_v4 record.domain }
            record).1 := by
        simp [handle_rsp, hacc]
      rw [hst]
      have hA1 : cacheAcceptable
          ({ st with trash_v4 := mdel st.trash_v4 record.domain } : RuntimeState) :=
        ⟨hA.1, hA.2⟩
      constructor
      · intro p hp
        rcases mem_handle_rsp_tail_v4_cache hp with h1 | h1
        · rw [h1]
          exact hacc
        · exact hA1.1 p h1
      · intro p hp
        rw [(handle_rsp_tail_v4_other _ record).2.2.1] at hp
        exact hA1.2 p hp
  | V6 record =>
    cases hacc : record.is_acceptable with
    | false =>
      have hexp : record.expire = none := hwf hacc
      cases htr : mget st.trash_v6 record.domain with
      | some v =>
        cases hdo : mget st.doing_v6 record.domain with
        | some vec =>
          have hst : (handle_rsp st (.V6 record)).1 =
              { st with doing_v6 := mdel st.doing_v6 record.domain } := by
            simp [handle_rsp, hacc, htr, hdo]
          rw [hst]
          exact ⟨hA.1, hA.2⟩
        | none =>
          have hst : (handle_rsp st (.V6 record)).1 = st := by
            simp [handle_rsp, hacc, htr, hdo]
          rw [hst]
          exact hA
      | none =>
        have hst : (handle_rsp st (.V6 record)).1 = (handle_rsp_tail_v6 st record).1 := by
          simp [handle_rsp, hacc, htr]
        rw [hst]
        constructor
        · intro p hp
          rw [(handle_rsp_tail_v6_other st record).2.2.1] at hp
          exact hA.1 p hp
        · intro p hp
          rw [handle_rsp_tail_v6_cache_none hexp] at hp
          exact hA.2 p hp
    | true =>
      have hst : (handle_rsp st (.V6 record)).1 =
          (handle_rsp_tail_v6 { st with trash_v6 := mdel st.trash_v6 record.domain }
            record).1 := by
        simp [handle_rsp, hacc]
      rw [hst]
      have hA1 : cacheAcceptable
          ({ st with trash_v6 := mdel st.trash_v6 record.domain } : RuntimeState) :=
        ⟨hA.1, hA.2⟩
      constructor
      · intro p hp
        rw [(handle_rsp_tail_v6_other _ record).2.2.1] at hp
        exact hA1.1 p hp
      · intro p hp
        rcases mem_handle_rsp_tail_v6_cache hp with h1 | h1
        · rw [h1]
          exact hacc
        · exact hA1.2 p h1

theorem handle_expired_v4_cacheAcc (st : RuntimeState) (d : Domain)
    (hA : cacheAcceptable st) : cacheAcceptable (handle_expired_v4 st d) := by
  cases hm : mget st.cache_v4 d with
  | none =>
    simp only [handle_expired_v4, hm]
    exact hA
  | some r =>
    cases hv : r.inner.vanish with
    | some v =>
      simp only [handle_expired_v4, hm, hv]
      exact ⟨fun p hp => hA.1 p (mem_mdel hp), hA.2⟩
    | none =>
      simp only [handle_expired_v4, hm, hv]
      exact ⟨fun p hp => hA.1 p (mem_mdel hp), hA.2⟩

theorem handle_expired_v6_cacheAcc (st : RuntimeState) (d : Domain)
    (hA : cacheAcceptable st) : cacheAcceptable (handle_expired_v6 st d) := by
  cases hm : mget st.cache_v6 d with
  | none =>
    simp only [handle_expired_v6, hm]
    exact hA
  | some r =>
    cases hv : r.inner.vanish with
    | some v =>
      simp only [handle_expired_v6, hm, hv]
      exact ⟨hA.1, fun p hp => hA.2 p (mem_mdel hp)⟩
    | none =>
      simp only [handle_expired_v6, hm, hv]
      exact ⟨hA.1, fun p hp => hA.2 p (mem_mdel hp)⟩

theorem step_cacheAcc (st : RuntimeState) (e : Event) (st1 : RuntimeState)
    (hwf : e.wf) (hA : cacheAcceptable st) (h : step st e = some st1) :
    cacheAcceptable st1 := by
  cases e with
  | cmd c =>
    simp only [step] at h
    injection h with h
    subst h
    have hp := handle_cmd_pres st c
    exact ⟨fun p hp1 => hA.1 p (hp.1 ▸ hp1), fun p hp1 => hA.2 p (hp.2.1 ▸ hp1)⟩
  | rsp r =>
    simp only [step] at h
    injection h with h
    subst h
    exact handle_rsp_cacheAcc st r hwf hA
  | expV4 d =>
    simp only [step] at h
    injection h with h
    subst h
    exact handle_expired_v4_cacheAcc st d hA
  | expV6 d =>
    simp only [step] at h
    injection h with h
    subst h
    exact handle_expired_v6_cacheAcc st d hA
  | req q =>
    simp only [step] at h
    cases hq : handle_req st q with
    | none =>
      rw [hq] at h
      injection h
    | some x =>
      rw [hq] at h
      simp at h
      subst h
      obtain ⟨h1, h2, _⟩ := handle_req_state st q x hq
      exact ⟨fun p hp => hA.1 p (h1 ▸ hp), fun p hp => hA.2 p (h2 ▸ hp)⟩
  | sweep now =>
    simp only [step] at h
    injection h with h
    subst h
    exact hA

theorem runEvents_cacheAcc : ∀ (events : List Event) (st st1 : RuntimeState),
    cacheAcceptable st → (∀ e ∈ events, e.wf) → runEvents st events = some st1 →
    cacheAcceptable st1 := by
  intro events
  induction events with
  | nil =>
    intro st st1 hA _ h
    simp only [runEvents] at h
    injection h with h
    subst h
    exact hA
  | cons e rest ih =>
    intro st st1 hA hwf h
    simp only [runEvents] at h
    cases hs : step st e with
    | none =>
      rw [hs] at h
      injection h
    | some st2 =>
      simp only [hs] at h
      exact ih st2 st1 (step_cacheAcc st e st2 (hwf e (by simp)) hA hs)
        (fun x hx => hwf x (by simp [hx])) h

theorem handle_rsp_cache_unchanged_on_failure (fam : Family) (st : RuntimeState)
    (r : ResolvedRecord) (hacc : r.is_acceptable = false)
    (ht : mget (trashOf st fam) r.domain = none) (hexp : r.expire = none) :
    (handle_rsp st (mkRsp fam r)).1.cache_v4 = st.cache_v4 ∧
    (handle_rsp st (mkRsp fam r)).1.cache_v6 = st.cache_v6 := by
  cases fam with
  | v4 =>
    simp only [trashOf] at ht
    have hst : (handle_rsp st (mkRsp .v4 r)).1 = (handle_rsp_tail_v4 st r).1 := by
      simp [mkRsp, handle_rsp, hacc, ht]
    rw [hst]
    exact ⟨handle_rsp_tail_v4_cache_none hexp, (handle_rsp_tail_v4_other st r).2.2.1⟩
  | v6 =>
    simp only [trashOf] at ht
    have hst : (handle_rsp st (mkRsp .v6 r)).1 = (handle_rsp_tail_v6 st r).1 := by
      simp [mkRsp, handle_rsp, hacc, ht]
    rw [hst]
    exact ⟨(handle_rsp_tail_v6_other st r).2.2.1, handle_rsp_tail_v6_cache_none hexp⟩

theorem handle_rsp_tail_v4_empty (st : RuntimeState) (r : ResolvedRecord)
    (hdo : mget st.doing_v4 r.domain = some []) :
    (handle_rsp_tail_v4 st r).2 = [] ∧
    (handle_rsp_tail_v4 st r).1.doing_v4 = mdel st.doing_v4 r.domain ∧
    (handle_rsp_tail_v4 st r).1.trash_v4 = st.trash_v4 ∧
    (∀ e_at, r.expire = some e_at →
      ∃ c, mget (handle_rsp_tail_v4 st r).1.cache_v4 r.domain = some c ∧
        c.inner = r ∧ c.expire_at = e_at) := by
  cases hexp : r.expire with
  | none =>
    refine ⟨?_, ?_, ?_, ?_⟩
    · simp [handle_rsp_tail_v4, hdo, vecPop, hexp]
    · simp [handle_rsp_tail_v4, hdo, vecPop, hexp]
    · simp [handle_rsp_tail_v4, hdo, vecPop, hexp]
    · intro e_at he
      cases he
  | some e_at0 =>
    refine ⟨?_, ?_, ?_, ?_⟩
    · simp [handle_rsp_tail_v4, hdo, vecPop, hexp]
    · simp [handle_rsp_tail_v4, hdo, vecPop, hexp]
    · simp [handle_rsp_tail_v4, hdo, vecPop, hexp]
    · intro e_at he
      injection he with he
      subst he
      obtain ⟨k, hk⟩ := mget_update_cache_self
        ({ st with doing_v4 := mdel st.doing_v4 r.domain } : RuntimeState).cache_v4
        ({ st with doing_v4 := mdel st.doing_v4 r.domain } : RuntimeState).expired_v4 r e_at0
      refine ⟨⟨r, e_at0, some k⟩, ?_, rfl, rfl⟩
      simp only [handle_rsp_tail_v4, hdo, vecPop, hexp]
      exact hk

theorem handle_rsp_tail_v6_empty (st : RuntimeState) (r : ResolvedRecord)
    (hdo : mget st.doing_v6 r.domain = some []) :
    (handle_rsp_tail_v6 st r).2 = [] ∧
    (handle_rsp_tail_v6 st r).1.doing_v6 = mdel st.doing_v6 r.domain ∧
    (handle_rsp_tail_v6 st r).1.trash_v6 = st.trash_v6 ∧
    (∀ e_at, r.expire = some e_at →
      ∃ c, mget (handle_rsp_tail_v6 st r).1.cache_v6 r.domain = some c ∧
        c.inner = r ∧ c.expire_at = e_at) := by
  cases hexp : r.expire with
  | none =>
    refine ⟨?_, ?_, ?_, ?_⟩
    · simp [handle_rsp_tail_v6, hdo, vecPop, hexp]
    · simp [handle_rsp_tail_v6, hdo, vecPop, hexp]
    · simp [handle_rsp_tail_v6, hdo, vecPop, hexp]
    · intro e_at he
      cases he
  | some e_at0 =>
    refine ⟨?_, ?_, ?_, ?_⟩
    · simp [handle_rsp_tail_v6, hdo, vecPop, hexp]
    · simp [handle_rsp_tail_v6, hdo, vecPop, hexp]
    · simp [handle_rsp_tail_v6, hdo, vecPop, hexp]
    · intro e_at he
      injection he with he
      subst he
      obtain ⟨k, hk⟩ := mget_update_cache_self
        ({ st with doing_v6 := mdel st.doing_v6 r.domain } : RuntimeState).cache_v6
        ({ st with doing_v6 := mdel st.doing_v6 r.domain } : RuntimeState).expired_v6 r e_at0
      refine ⟨⟨r, e_at0, some k⟩, ?_, rfl, rfl⟩
      simp only [handle_rsp_tail_v6, hdo, vecPop, hexp]
      exact hk

/-- C1: for a (family, domain) pair with no cache entry and no trash
entry, any number N ≥ 1 of resolve requests cause exactly one driver query
to be dispatched — the first request creates the in-flight entry and
dispatches, every later request only joins the waiter list — and when the
driver response arrives every one of the N waiters receives the same
resulting record. -/
theorem C1_dedup_confirmed (fam : Family) (d : Domain) (senders : List Nat)
    (st : RuntimeState) (hdrv : st.driver = true) (hs : senders ≠ [])
    (hc : mget (cacheOf st fam) d = none) (ht : mget (trashOf st fam) d = none)
    (hdo : mget (doingOf st fam) d = none) :
    ∃ st1, run_reqs st (senders.map (mkReq fam d)) = some (st1, [], [(fam, d)]) ∧
      mget (doingOf st1 fam) d = some senders ∧
      ∀ r : ResolvedRecord, r.domain = d →
        ((handle_rsp st1 (mkRsp fam r)).2.map Send.sender).Perm senders ∧
        ∀ t ∈ (handle_rsp st1 (mkRsp fam r)).2, t.record = r := by
  cases senders with
  | nil => exact absurd rfl hs
  | cons s rest =>
    cases fam with
    | v4 =>
      simp only [cacheOf] at hc
      simp only [trashOf] at ht
      simp only [doingOf] at hdo
      have hreq : handle_req st (mkReq .v4 d s) =
          some ({ st with doing_v4 := mput st.doing_v4 d [s] }, [], [(.v4, d)]) := by
        simp [mkReq, handle_req, hc, ht, hdo, hdrv]
      obtain ⟨st1, hrun, hdo1, h1, h2, h3, h4⟩ :=
        run_reqs_join .v4 d rest { st with doing_v4 := mput st.doing_v4 d [s] } [s]
          (by simpa [cacheOf] using hc) (by simpa [trashOf] using ht)
          (by simp [doingOf, mget_mput])
      have hdo2 : mget (doingOf st1 .v4) d = some (s :: rest) := by
        simpa using hdo1
      refine ⟨st1, by simp [run_reqs, hreq, hrun], hdo2, ?_⟩
      intro r hrd
      have ht1 : mget (trashOf st1 .v4) r.domain = none := by
        simp only [trashOf, h3, hrd]
        exact ht
      have hdo3 : mget (doingOf st1 .v4) r.domain = some (s :: rest) := by
        rw [hrd]
        exact hdo2
      have hfan := handle_rsp_fanout .v4 st1 r (s :: rest) (by simp) hdo3 (Or.inr ht1)
      constructor
      · rw [hfan]
        simp only [List.map_cons, List.map_map]
        have : (Send.sender ∘ fun t => (⟨t, r, ResolvedRecordSource.Cache⟩ : Send)) =
            fun t => t := rfl
        rw [this, List.map_id_fun']
        exact getLast_cons_dropLast_perm (s :: rest) (by simp)
      · rw [hfan]
        intro t htm
        rcases List.mem_cons.mp htm with htm | htm
        · subst htm
          rfl
        · obtain ⟨a, _, htm⟩ := List.mem_map.mp htm
          rw [← htm]
    | v6 =>
      simp only [cacheOf] at hc
      simp only [trashOf] at ht
      simp only [doingOf] at hdo
      have hreq : handle_req st (mkReq .v6 d s) =
          some ({ st with doing_v6 := mput st.doing_v6 d [s] }, [], [(.v6, d)]) := by
        simp [mkReq, handle_req, hc, ht, hdo, hdrv]
      obtain ⟨st1, hrun, hdo1, h1, h2, h3, h4⟩ :=
        run_reqs_join .v6 d rest { st with doing_v6 := mput st.doing_v6 d [s] } [s]
          (by simpa [cacheOf] using hc) (by simpa [trashOf] using ht)
          (by simp [doingOf, mget_mput])
      have hdo2 : mget (doingOf st1 .v6) d = some (s :: rest) := by
        simpa using hdo1
      refine ⟨st1, by simp [run_reqs, hreq, hrun], hdo2, ?_⟩
      intro r hrd
      have ht1 : mget (trashOf st1 .v6) r.domain = none := by
        simp only [trashOf, h4, hrd]
        exact ht
      have hdo3 : mget (doingOf st1 .v6) r.domain = some (s :: rest) := by
        rw [hrd]
        exact hdo2
      have hfan := handle_rsp_fanout .v6 st1 r (s :: rest) (by simp) hdo3 (Or.inr ht1)
      constructor
      · rw [hfan]
        simp only [List.map_cons, List.map_map]
        have : (Send.sender ∘ fun t => (⟨t, r, ResolvedRecordSource.Cache⟩ : Send)) =
            fun t => t := rfl
        rw [this, List.map_id_fun']
        exact getLast_cons_dropLast_perm (s :: rest) (by simp)
      · rw [hfan]
        intro t htm
        rcases List.mem_cons.mp htm with htm | htm
        · subst htm
          rfl
        · obtain ⟨a, _, htm⟩ := List.mem_map.mp htm
          rw [← htm]

/-- C2: when a driver response carries a non-acceptable record and a trash
entry exists for its domain, every current in-flight waiter receives the
trash entry's record with provenance Trash, the failed record is never
inserted into the cache, and the cache and trash maps are unchanged by the
failed response. -/
theorem C2_trash_fallback_confirmed (fam : Family) (st : RuntimeState)
    (r : ResolvedRecord) (e : TrashedRecord)
    (hacc : r.is_acceptable = false) (ht : mget (trashOf st fam) r.domain = some e) :
    ((∀ w, mget (doingOf st fam) r.domain = some w →
        (handle_rsp st (mkRsp fam r)).2 =
          w.map (fun s => ⟨s, e.inner, ResolvedRecordSource.Trash⟩)) ∧
     (mget (doingOf st fam) r.domain = none → (handle_rsp st (mkRsp fam r)).2 = [])) ∧
    (handle_rsp st (mkRsp fam r)).1.cache_v4 = st.cache_v4 ∧
    (handle_rsp st (mkRsp fam r)).1.cache_v6 = st.cache_v6 ∧
    (handle_rsp st (mkRsp fam r)).1.trash_v4 = st.trash_v4 ∧
    (handle_rsp st (mkRsp fam r)).1.trash_v6 = st.trash_v6 := by
  cases fam with
  | v4 =>
    simp only [trashOf] at ht
    simp only [doingOf]
    refine ⟨⟨?_, ?_⟩, ?_⟩
    · intro w hdo
      simp [mkRsp, handle_rsp, hacc, ht, hdo]
    · intro hdo
      simp [mkRsp, handle_rsp, hacc, ht, hdo]
    · cases hdo : mget st.doing_v4 r.domain <;>
        simp [mkRsp, handle_rsp, hacc, ht, hdo]
  | v6 =>
    simp only [trashOf] at ht
    simp only [doingOf]
    refine ⟨⟨?_, ?_⟩, ?_⟩
    · intro w hdo
      simp [mkRsp, handle_rsp, hacc, ht, hdo]
    · intro hdo
      simp [mkRsp, handle_rsp, hacc, ht, hdo]
    · cases hdo : mget st.doing_v6 r.domain <;>
        simp [mkRsp, handle_rsp, hacc, ht, hdo]

/-- C4: a resolve that hits the trash store replies immediately with the
trash record (provenance Trash) and ensures a background refresh: the
first trash-hitting request creates an in-flight entry with an empty
waiter list and dispatches one refresh query, and every further
trash-hitting resolve before the refresh completes dispatches nothing, so
exactly one refresh query is dispatched in total. -/
theorem C4_background_refresh_confirmed (fam : Family) (d : Domain)
    (senders : List Nat) (st : RuntimeState) (e : TrashedRecord)
    (hdrv : st.driver = true) (hs : senders ≠ [])
    (hc : mget (cacheOf st fam) d = none) (ht : mget (trashOf st fam) d = some e)
    (hdo : mget (doingOf st fam) d = none) :
    ∃ st1, run_reqs st (senders.map (mkReq fam d)) =
        some (st1, senders.map (fun s => ⟨s, e.inner, ResolvedRecordSource.Trash⟩),
              [(fam, d)]) ∧
      mget (doingOf st1 fam) d = some [] := by
  cases senders with
  | nil => exact absurd rfl hs
  | cons s rest =>
    cases fam with
    | v4 =>
      simp only [cacheOf] at hc
      simp only [trashOf] at ht
      simp only [doingOf] at hdo
      have hreq : handle_req st (mkReq .v4 d s) =
          some ({ st with doing_v4 := mput st.doing_v4 d [] },
                [⟨s, e.inner, ResolvedRecordSource.Trash⟩], [(.v4, d)]) := by
        simp [mkReq, handle_req, hc, ht, hdo, hdrv]
      have hrest := run_reqs_trash_occupied .v4 d rest
        { st with doing_v4 := mput st.doing_v4 d [] } e []
        (by simpa [cacheOf] using hc) (by simpa [trashOf] using ht)
        (by simp [doingOf, mget_mput])
      refine ⟨{ st with doing_v4 := mput st.doing_v4 d [] }, ?_, ?_⟩
      · simp [run_reqs, hreq, hrest]
      · simp [doingOf, mget_mput]
    | v6 =>
      simp only [cacheOf] at hc
      simp only [trashOf] at ht
      simp only [doingOf] at hdo
      have hreq : handle_req st (mkReq .v6 d s) =
          some ({ st with doing_v6 := mput st.doing_v6 d [] },
                [⟨s, e.inner, ResolvedRecordSource.Trash⟩], [(.v6, d)]) := by
        simp [mkReq, handle_req, hc, ht, hdo, hdrv]
      have hrest := run_reqs_trash_occupied .v6 d rest
        { st with doing_v6 := mput st.doing_v6 d [] } e []
        (by simpa [cacheOf] using hc) (by simpa [trashOf] using ht)
        (by simp [doingOf, mget_mput])
      refine ⟨{ st with doing_v6 := mput st.doing_v6 d [] }, ?_, ?_⟩
      · simp [run_reqs, hreq, hrest]
      · simp [doingOf, mget_mput]

/-- C5: when an expiry timer fires for a domain, the actor removes that
domain's cache entry; if the removed record carries a vanish instant the
record is inserted into the trash store with that instant as its
`vanish_at`, otherwise it is dropped unconditionally; a fired timer whose
cache entry was already removed is a no-op. -/
theorem C5_expiry_confirmed (st : RuntimeState) (d : Domain) :
    (mget st.cache_v4 d = none → handle_expired_v4 st d = st) ∧
    (∀ r, mget st.cache_v4 d = some r →
      (∀ v, r.inner.vanish = some v →
        handle_expired_v4 st d =
          { st with cache_v4 := mdel st.cache_v4 d,
                    trash_v4 := mput st.trash_v4 r.inner.domain ⟨r.inner, v⟩ }) ∧
      (r.inner.vanish = none →
        handle_expired_v4 st d = { st with cache_v4 := mdel st.cache_v4 d })) ∧
    (mget st.cache_v6 d = none → handle_expired_v6 st d = st) ∧
    (∀ r, mget st.cache_v6 d = some r →
      (∀ v, r.inner.vanish = some v →
        handle_expired_v6 st d =
          { st with cache_v6 := mdel st.cache_v6 d,
                    trash_v6 := mput st.trash_v6 r.inner.domain ⟨r.inner, v⟩ }) ∧
      (r.inner.vanish = none →
        handle_expired_v6 st d = { st with cache_v6 := mdel st.cache_v6 d })) := by
  refine ⟨?_, ?_, ?_, ?_⟩
  · intro h
    simp [handle_expired_v4, h]
  · intro r hm
    constructor
    · intro v hv
      simp [handle_expired_v4, hm, hv]
    · intro hv
      simp [handle_expired_v4, hm, hv]
  · intro h
    simp [handle_expired_v6, h]
  · intro r hm
    constructor
    · intro v hv
      simp [handle_expired_v6, hm, hv]
    · intro hv
      simp [handle_expired_v6, hm, hv]

/-- C7 (amended): when an in-flight query completes with waiters queued,
the last-queued waiter receives the record with provenance Query and every
earlier-queued waiter receives it with provenance Cache; the reply to the
last-queued waiter is sent first, and the earlier-queued waiters are then
released in the order they joined. -/
theorem C7_fanout_amended (fam : Family) (st : RuntimeState) (r : ResolvedRecord)
    (w : List Nat) (hw : w ≠ [])
    (hdo : mget (doingOf st fam) r.domain = some w)
    (hok : r.is_acceptable = true ∨ mget (trashOf st fam) r.domain = none) :
    (handle_rsp st (mkRsp fam r)).2 =
      ⟨w.getLast hw, r, ResolvedRecordSource.Query⟩ ::
        w.dropLast.map (fun s => ⟨s, r, ResolvedRecordSource.Cache⟩) :=
  handle_rsp_fanout fam st r w hw hdo hok

/-- C10: a driver response for a domain whose in-flight entry has an empty
waiter list (a background refresh nobody joined) is handled without
sending any reply: the in-flight entry is removed, popping the empty
waiter list yields nothing, and when the record is acceptable its trash
entry is removed and, when it carries an expire instant, it is upserted
into the cache. -/
theorem C10_empty_refresh_confirmed (fam : Family) (st : RuntimeState)
    (r : ResolvedRecord) (hdo : mget (doingOf st fam) r.domain = some []) :
    (handle_rsp st (mkRsp fam r)).2 = [] ∧
    mget (doingOf (handle_rsp st (mkRsp fam r)).1 fam) r.domain = none ∧
    (r.is_acceptable = true →
      mget (trashOf (handle_rsp st (mkRsp fam r)).1 fam) r.domain = none ∧
      ∀ e_at, r.expire = some e_at →
        ∃ c, mget (cacheOf (handle_rsp st (mkRsp fam r)).1 fam) r.domain = some c ∧
          c.inner = r ∧ c.expire_at = e_at) := by
  cases fam with
  | v4 =>
    simp only [doingOf] at hdo
    cases hacc : r.is_acceptable with
    | true =>
      have hst : handle_rsp st (mkRsp .v4 r) =
          handle_rsp_tail_v4 { st with trash_v4 := mdel st.trash_v4 r.domain } r := by
        simp [mkRsp, handle_rsp, hacc]
      obtain ⟨hsnd, hdoq, htrq, hcq⟩ := handle_rsp_tail_v4_empty
        { st with trash_v4 := mdel st.trash_v4 r.domain } r hdo
      rw [hst]
      refine ⟨hsnd, ?_, fun _ => ⟨?_, hcq⟩⟩
      · simp [doingOf, hdoq, mget_mdel]
      · simp [trashOf, htrq, mget_mdel]
    | false =>
      cases htr : mget st.trash_v4 r.domain with
      | some v =>
        have hst : handle_rsp st (mkRsp .v4 r) =
            ({ st with doing_v4 := mdel st.doing_v4 r.domain }, []) := by
          simp [mkRsp, handle_rsp, hacc, htr, hdo]
        rw [hst]
        refine ⟨rfl, ?_, ?_⟩
        · simp [doingOf, mget_mdel]
        · intro hacc1
          simp [hacc] at hacc1
      | none =>
        have hst : handle_rsp st (mkRsp .v4 r) = handle_rsp_tail_v4 st r := by
          simp [mkRsp, handle_rsp, hacc, htr]
        obtain ⟨hsnd, hdoq, htrq, hcq⟩ := handle_rsp_tail_v4_empty st r hdo
        rw [hst]
        refine ⟨hsnd, ?_, ?_⟩
        · simp [doingOf, hdoq, mget_mdel]
        · intro hacc1
          simp [hacc] at hacc1
  | v6 =>
    simp only [doingOf] at hdo
    cases hacc : r.is_acceptable with
    | true =>
      have hst : handle_rsp st (mkRsp .v6 r) =
          handle_rsp_tail_v6 { st with trash_v6 := mdel st.trash_v6 r.domain } r := by
        simp [mkRsp, handle_rsp, hacc]
      obtain ⟨hsnd, hdoq, htrq, hcq⟩ := handle_rsp_tail_v6_empty
        { st with trash_v6 := mdel st.trash_v6 r.domain } r hdo
      rw [hst]
      refine ⟨hsnd, ?_, fun _ => ⟨?_, hcq⟩⟩
      · simp [doingOf, hdoq, mget_mdel]
      · simp [trashOf, htrq, mget_mdel]
    | false =>
      cases htr : mget st.trash_v6 r.domain with
      | some v =>
        have hst : handle_rsp st (mkRsp .v6 r) =
            ({ st with doing_v6 := mdel st.doing_v6 r.domain }, []) := by
          simp [mkRsp, handle_rsp, hacc, htr, hdo]
        rw [hst]
        refine ⟨rfl, ?_, ?_⟩
        · simp [doingOf, mget_mdel]
        · intro hacc1
          simp [hacc] at hacc1
      | none =>
        have hst : handle_rsp st (mkRsp .v6 r) = handle_rsp_tail_v6 st r := by
          simp [mkRsp, handle_rsp, hacc, htr]
        obtain ⟨hsnd, hdoq, htrq, hcq⟩ := handle_rsp_tail_v6_empty st r hdo
        rw [hst]
        refine ⟨hsnd, ?_, ?_⟩
        · simp [doingOf, hdoq, mget_mdel]
        · intro hacc1
          simp [hacc] at hacc1

/-- C3: a non-acceptable record is never inserted into the live cache: in
every state reachable from the initial state by well-formed events, every
record held in cache_v4 or cache_v6 is acceptable; and when a
non-acceptable record is delivered because no trash fallback exists, the
cache is unchanged by that response (well-formedness of a driver response
— a non-acceptable record carries no expire instant — is modelled from
the spec, the record constructors being outside src/). -/
theorem C3_cache_acceptable_confirmed :
    (∀ (batch : Nat) (events : List Event) (st1 : RuntimeState),
      (∀ e ∈ events, e.wf) → runEvents (initState batch) events = some st1 →
      cacheAcceptable st1) ∧
    (∀ (fam : Family) (st : RuntimeState) (r : ResolvedRecord),
      r.is_acceptable = false → mget (trashOf st fam) r.domain = none →
      r.expire = none →
      (handle_rsp st (mkRsp fam r)).1.cache_v4 = st.cache_v4 ∧
      (handle_rsp st (mkRsp fam r)).1.cache_v6 = st.cache_v6) := by
  constructor
  · intro batch events st1 hwf h
    refine runEvents_cacheAcc events (initState batch) st1 ?_ hwf h
    constructor <;> intro p hp <;> simp [initState] at hp
  · exact handle_rsp_cache_unchanged_on_failure

/-- C6 (amended): the trash sweep drops exactly the trash entries whose
vanish_at ≤ now and runs once per poll iteration before any events are
processed; consequently, in a poll iteration in which every cached
record's vanish instant and every arriving driver-response record's
vanish instant still lies strictly in the future, no reply served with
Trash provenance carries a record whose vanish instant has already passed.
(A record whose expiry timer fires only after its vanish instant has
passed is demoted to trash mid-iteration and can still be served once,
which is the behaviour the original sentence excluded.) -/
theorem C6_sweep_amended :
    (∀ (st : RuntimeState) (now : Nat) (p : Domain × TrashedRecord),
      (p ∈ (clean_trash st now).trash_v4 ↔ p ∈ st.trash_v4 ∧ now < p.2.vanish_at) ∧
      (p ∈ (clean_trash st now).trash_v6 ↔ p ∈ st.trash_v6 ∧ now < p.2.vanish_at)) ∧
    (∀ (st : RuntimeState) (now : Nat) (spawn_ok : Bool)
       (cmds : List ResolverCommand) (rsps : List ResolveDriverResponse)
       (reqs : List ResolveDriverRequest) (res : IterResult),
      trashWf st → cacheVanishGood st now →
      (∀ r ∈ rsps, ∀ v, (rspRecord r).vanish = some v → now < v) →
      poll_iteration st now spawn_ok cmds rsps reqs = some res →
      sendVanishGood now res.sends) := by
  constructor
  · intro st now p
    exact ⟨mem_clean_trash_v4 st now p, mem_clean_trash_v6 st now p⟩
  · intro st now sp cmds rsps reqs res hw hc hr h
    exact poll_iteration_sends_good st now sp cmds rsps reqs res hw hc hr h

/-- C6 counterexample: at instant 5 the late-firing expiry timer demotes
the record (vanish instant 2) to trash after the sweep already ran, and
the request in the same iteration is served that record with Trash
provenance although 2 < 5 — the claim that a trash entry is never served
strictly after its vanish instant passes is false on this input. -/
theorem C6_counterexample :
    poll_iteration stC6 5 true [] [] [ResolveDriverRequest.GetV4 "a" 9] =
      some ⟨{ cache_v4 := [], cache_v6 := []
              doing_v4 := [("a", [])], doing_v6 := []
              trash_v4 := [("a", ⟨rC6, 2⟩)], trash_v6 := []
              expired_v4 := ⟨[], 1⟩, expired_v6 := ⟨[], 0⟩
              driver := true, batch_request_count := 2 },
            [⟨9, rC6, ResolvedRecordSource.Trash⟩], [(Family.v4, "a")], [], 1⟩ ∧
    rC6.vanish = some 2 ∧ 2 < 5 := by
  refine ⟨rfl, rfl, by decide⟩

/-- C8 (amended): in one actor-loop iteration the request drain processes
at most `batch_request_count - 1` requests — the source loop runs over the
range `1..batch_request_count` — and when at least that many requests are
queued it processes exactly `batch_request_count - 1`: the number
processed is min (batch_request_count - 1) (queue length). -/
theorem C8_drain_amended (st : RuntimeState) (queue : List ResolveDriverRequest)
    (res : DrainResult) (h : drain_requests st queue = some res) :
    res.processed = min (st.batch_request_count - 1) queue.length :=
  drain_go_processed (st.batch_request_count - 1) queue st res h

/-- C8 counterexample: with batch_request_count = 2 and two queued
requests, exactly one request is processed in the iteration, not the
configured two — `for _ in 1..n` runs n-1 times. -/
theorem C8_counterexample :
    stC8.batch_request_count = 2 ∧
    [ResolveDriverRequest.GetV4 "a" 0, ResolveDriverRequest.GetV4 "b" 1].length = 2 ∧
    drain_requests stC8 [ResolveDriverRequest.GetV4 "a" 0, ResolveDriverRequest.GetV4 "b" 1] =
      some ⟨stC8, [⟨0, rC8a, ResolvedRecordSource.Cache⟩], [],
            [ResolveDriverRequest.GetV4 "b" 1], 1⟩ ∧
    (1 : Nat) ≠ 2 := by
  refine ⟨rfl, rfl, rfl, by decide⟩

/-- C9 (amended): when the request algorithm must dispatch on the
join-or-start path (no cache, trash or doing entry) and no driver is set,
the engine hits `unreachable!` and aborts; but on the trash-hit
background-refresh path a missing driver is not fatal: the reply is still
sent from trash, the empty in-flight entry is still created, and no
refresh query is dispatched. -/
theorem C9_missing_driver_amended (fam : Family) (st : RuntimeState) (d : Domain)
    (s : Nat) (hdrv : st.driver = false) (hc : mget (cacheOf st fam) d = none)
    (hdo : mget (doingOf st fam) d = none) :
    (mget (trashOf st fam) d = none → handle_req st (mkReq fam d s) = none) ∧
    (∀ e, mget (trashOf st fam) d = some e →
      ∃ st1, handle_req st (mkReq fam d s) =
          some (st1, [⟨s, e.inner, ResolvedRecordSource.Trash⟩], []) ∧
        mget (doingOf st1 fam) d = some []) := by
  cases fam with
  | v4 =>
    simp only [cacheOf] at hc
    simp only [doingOf] at hdo
    simp only [trashOf]
    constructor
    · intro ht
      simp [mkReq, handle_req, hc, ht, hdo, hdrv]
    · intro e ht
      refine ⟨{ st with doing_v4 := mput st.doing_v4 d [] }, ?_, ?_⟩
      · simp [mkReq, handle_req, hc, ht, hdo, hdrv]
      · simp [doingOf, mget_mput]
  | v6 =>
    simp only [cacheOf] at hc
    simp only [doingOf] at hdo
    simp only [trashOf]
    constructor
    · intro ht
      simp [mkReq, handle_req, hc, ht, hdo, hdrv]
    · intro e ht
      refine ⟨{ st with doing_v6 := mput st.doing_v6 d [] }, ?_, ?_⟩
      · simp [mkReq, handle_req, hc, ht, hdo, hdrv]
      · simp [doingOf, mget_mput]

/-- C9 counterexample: with no driver set, a trash-hitting request for "a"
is handled without aborting — the engine replies from trash, creates the
empty in-flight entry and dispatches nothing — so a missing driver is not
treated as fatal on the background-refresh dispatch path. -/
theorem C9_counterexample :
    stC9.driver = false ∧
    handle_req stC9 (ResolveDriverRequest.GetV4 "a" 7) =
      some ({ stC9 with doing_v4 := [("a", [])] },
            [⟨7, eW.inner, ResolvedRecordSource.Trash⟩], []) ∧
    handle_req stC9 (ResolveDriverRequest.GetV4 "a" 7) ≠ none := by
  refine ⟨rfl, rfl, by decide⟩

/-- C7 counterexample: with waiters [0, 1] queued in that order, the
completion fan-out sends to waiter 1 (the last queued, provenance Query)
before waiter 0 (provenance Cache) — the reply order [1, 0] is not the
join order [0, 1], so delivery is reordered, contrary to the claim. -/
theorem C7_counterexample :
    (handle_rsp stC7 (ResolveDriverResponse.V4 rC7)).2 =
      [⟨1, rC7, ResolvedRecordSource.Query⟩, ⟨0, rC7, ResolvedRecordSource.Cache⟩] ∧
    (handle_rsp stC7 (ResolveDriverResponse.V4 rC7)).2.map Send.sender = [1, 0] ∧
    [1, 0] ≠ [0, 1] := by
  refine ⟨rfl, rfl, by decide⟩

/-- Witness for C1 at a concrete input: two waiters for "a" over IPv4. -/
theorem C1_dedup_witness :
    ∃ st1, run_reqs stW1 ([3, 4].map (mkReq Family.v4 "a")) =
        some (st1, [], [(Family.v4, "a")]) ∧
      mget (doingOf st1 Family.v4) "a" = some [3, 4] ∧
      ∀ r : ResolvedRecord, r.domain = "a" →
        ((handle_rsp st1 (mkRsp Family.v4 r)).2.map Send.sender).Perm [3, 4] ∧
        ∀ t ∈ (handle_rsp st1 (mkRsp Family.v4 r)).2, t.record = r :=
  C1_dedup_confirmed .v4 "a" [3, 4] stW1 rfl (by decide) rfl rfl rfl

/-- Witness for C2 at a concrete input: failed response for "a" with a
trash entry and one waiter. -/
theorem C2_trash_fallback_witness :
    ((∀ w, mget (doingOf stW2 Family.v4) rFail.domain = some w →
        (handle_rsp stW2 (mkRsp Family.v4 rFail)).2 =
          w.map (fun s => ⟨s, eW.inner, ResolvedRecordSource.Trash⟩)) ∧
     (mget (doingOf stW2 Family.v4) rFail.domain = none →
        (handle_rsp stW2 (mkRsp Family.v4 rFail)).2 = [])) ∧
    (handle_rsp stW2 (mkRsp Family.v4 rFail)).1.cache_v4 = stW2.cache_v4 ∧
    (handle_rsp stW2 (mkRsp Family.v4 rFail)).1.cache_v6 = stW2.cache_v6 ∧
    (handle_rsp stW2 (mkRsp Family.v4 rFail)).1.trash_v4 = stW2.trash_v4 ∧
    (handle_rsp stW2 (mkRsp Family.v4 rFail)).1.trash_v6 = stW2.trash_v6 :=
  C2_trash_fallback_confirmed .v4 stW2 rFail eW rfl rfl

/-- Witness for C3 at a concrete input: one acceptable cacheable response
from the initial state, and one trash-less failure delivery. -/
theorem C3_cache_acceptable_witness :
    cacheAcceptable stC3res ∧
    (handle_rsp stW2 (mkRsp Family.v4 rFailB)).1.cache_v4 = stW2.cache_v4 ∧
    (handle_rsp stW2 (mkRsp Family.v4 rFailB)).1.cache_v6 = stW2.cache_v6 :=
  ⟨C3_cache_acceptable_confirmed.1 2 [Event.rsp (.V4 rGood)] stC3res
    (by
      intro e he
      simp at he
      subst he
      intro h
      simp [rGood] at h) rfl,
   C3_cache_acceptable_confirmed.2 .v4 stW2 rFailB rfl rfl rfl⟩

/-- Witness for C4 at a concrete input: two trash-hitting resolves for
"a"; one refresh dispatch, empty waiter list. -/
theorem C4_background_refresh_witness :
    ∃ st1, run_reqs stW4 ([7, 8].map (mkReq Family.v4 "a")) =
        some (st1, [7, 8].map (fun s => ⟨s, eW.inner, ResolvedRecordSource.Trash⟩),
              [(Family.v4, "a")]) ∧
      mget (doingOf st1 Family.v4) "a" = some [] :=
  C4_background_refresh_confirmed .v4 "a" [7, 8] stW4 eW rfl (by decide) rfl rfl rfl

/-- Witness for C5 at a concrete input: "w" expires and is demoted to
trash at its vanish instant 7. -/
theorem C5_expiry_witness :
    handle_expired_v4 stW5 "w" =
      { stW5 with cache_v4 := mdel stW5.cache_v4 "w",
                  trash_v4 := mput stW5.trash_v4 rW5.domain ⟨rW5, 7⟩ } :=
  ((C5_expiry_confirmed stW5 "w").2.1 ⟨rW5, 3, some 0⟩ rfl).1 7 rfl

/-- Witness for C6 at a concrete input: sweep keeps the entry vanishing at
9 when polled at 3, and an iteration from a well-formed state serves no
vanished trash record. -/
theorem C6_sweep_witness :
    ((("a", eW) ∈ (clean_trash stW2 3).trash_v4 ↔
        ("a", eW) ∈ stW2.trash_v4 ∧ 3 < eW.vanish_at) ∧
     (("a", eW) ∈ (clean_trash stW2 3).trash_v6 ↔
        ("a", eW) ∈ stW2.trash_v6 ∧ 3 < eW.vanish_at)) ∧
    sendVanishGood 3 (IterResult.sends ⟨{ stW2 with driver := true }, [], [], [], 0⟩) :=
  ⟨C6_sweep_amended.1 stW2 3 ("a", eW),
   C6_sweep_amended.2 stW2 3 true [] [] [] ⟨{ stW2 with driver := true }, [], [], [], 0⟩
     (by
       constructor
       · intro p hp
         simp [stW2, initState] at hp
         subst hp
         rfl
       · intro p hp
         simp [stW2, initState] at hp)
     (by constructor <;> intro p hp <;> simp [stW2, initState] at hp)
     (by intro r hr; simp at hr) rfl⟩

/-- Witness for C7 at a concrete input: waiters [0, 1]; waiter 1 is sent
Query first, then waiter 0 is sent Cache. -/
theorem C7_fanout_witness :
    (handle_rsp stC7 (mkRsp Family.v4 rC7)).2 =
      [⟨1, rC7, ResolvedRecordSource.Query⟩, ⟨0, rC7, ResolvedRecordSource.Cache⟩] := by
  rw [C7_fanout_amended .v4 stC7 rC7 [0, 1] (by decide) rfl (Or.inl rfl)]
  rfl

/-- Witness for C8 at a concrete input: batch knob 2, two queued requests,
one processed. -/
theorem C8_drain_witness :
    (⟨stC8, [⟨0, rC8a, ResolvedRecordSource.Cache⟩], [],
      [ResolveDriverRequest.GetV4 "b" 1], 1⟩ : DrainResult).processed =
      min (stC8.batch_request_count - 1)
        [ResolveDriverRequest.GetV4 "a" 0, ResolveDriverRequest.GetV4 "b" 1].length :=
  C8_drain_amended stC8
    [ResolveDriverRequest.GetV4 "a" 0, ResolveDriverRequest.GetV4 "b" 1]
    ⟨stC8, [⟨0, rC8a, ResolvedRecordSource.Cache⟩], [],
     [ResolveDriverRequest.GetV4 "b" 1], 1⟩ rfl

/-- Witness for C9 at a concrete input: driverless trash hit for "a"
creates the empty in-flight entry without dispatch or abort. -/
theorem C9_missing_driver_witness :
    ∃ st1, handle_req stC9 (mkReq Family.v4 "a" 7) =
        some (st1, [⟨7, eW.inner, ResolvedRecordSource.Trash⟩], []) ∧
      mget (doingOf st1 Family.v4) "a" = some [] :=
  (C9_missing_driver_amended .v4 stC9 "a" 7 rfl rfl rfl).2 eW rfl

/-- Witness for C10 at a concrete input: a background refresh for "g"
nobody joined repopulates the cache silently. -/
theorem C10_empty_refresh_witness :
    (handle_rsp stW10 (mkRsp Family.v4 rGood)).2 = [] ∧
    mget (doingOf (handle_rsp stW10 (mkRsp Family.v4 rGood)).1 Family.v4)
      rGood.domain = none ∧
    (rGood.is_acceptable = true →
      mget (trashOf (handle_rsp stW10 (mkRsp Family.v4 rGood)).1 Family.v4)
        rGood.domain = none ∧
      ∀ e_at, rGood.expire = some e_at →
        ∃ c, mget (cacheOf (handle_rsp stW10 (mkRsp Family.v4 rGood)).1 Family.v4)
            rGood.domain = some c ∧
          c.inner = rGood ∧ c.expire_at = e_at) :=
  C10_empty_refresh_confirmed .v4 stW10 rGood rfl

end G3Resolver
